import Mathlib

/-!
Verification development for the StressView wearable firmware
(src/hardware/DeviceCode.cpp).

The firmware is shallowly embedded: C floating point arithmetic is modelled
over the rationals, machine integers over Nat/Int (with explicit modular
reduction where C overflow or wraparound is semantically relevant, namely
the 32-bit unsigned millisecond counter and the 8-bit high-stress-minute
accumulator).  Fixed C arrays are modelled as total functions or lists with
the index arithmetic of the source reproduced verbatim.  The square root
used by the RMSSD computation is kept abstract: every statement about it is
parametric in the function used for sqrt, and the quantitative content is
stated about the radicand, which determines the RMSSD value.
-/

namespace StressView

set_option maxHeartbeats 1000000

/-- Arduino constrain macro: clamp x to the interval from lo to hi. -/
def constrain (x lo hi : ℚ) : ℚ :=
  if x < lo then lo else if x > hi then hi else x

/-- mapFloat from DeviceCode.cpp: linear interpolation between two ranges. -/
def mapFloat (x inMin inMax outMin outMax : ℚ) : ℚ :=
  (x - inMin) * (outMax - outMin) / (inMax - inMin) + outMin

/-- HRV_ACTIVITY_MULTIPLIER table indexed by activity level 0..3. -/
def hrvActivityMultiplier (a : ℕ) : ℚ :=
  if a = 0 then 1 else if a = 1 then 0.95 else if a = 2 then 0.80 else 0.65

/-- Warm-up threshold HRV_WARMUP_COUNT. -/
def hrvWarmupCount : ℕ := 20

/-- Per-cycle sensor inputs consumed by calculateStressIndex.  These are the
globals the function reads but never writes. -/
structure FusionInput where
  currentHRV : ℚ
  longTermHRV : ℚ
  currentActivity : ℕ
  hrSensorActive : Bool
  rrCount : ℕ
  currentGSR : ℚ
  baselineGSR : ℚ
  currentHR : ℚ
  motionVariance : ℚ
deriving DecidableEq

/-- Mutable state threaded through calculateStressIndex: the function
statics plus the globals it updates.  pmr is physiologicalToMotionRatio. -/
structure FusionState where
  gsrMaxSwing : ℚ
  pmr : ℚ
  previousHR : ℚ
  previousGSR : ℚ
  smoothedStressData : ℚ
  smoothedStressDisplay : ℚ
  previousAdjustedStress : ℚ
deriving DecidableEq

/-- Condition under which the HRV component participates in the fusion:
the heart-rate sensor is active and the RR warm-up count is reached. -/
def hrvAvailable (inp : FusionInput) : Prop :=
  inp.hrSensorActive = true ∧ hrvWarmupCount ≤ inp.rrCount

instance (inp : FusionInput) : Decidable (hrvAvailable inp) := by
  unfold hrvAvailable; infer_instance

/-- HRV score step of calculateStressIndex: current HRV mapped onto the
activity-adjusted baseline range, clamped to the stress interval. -/
def fusionHrvScore (inp : FusionInput) : ℚ :=
  let activityAdjustedHRVBaseline :=
    inp.longTermHRV * hrvActivityMultiplier inp.currentActivity
  if hrvAvailable inp then
    constrain
      (mapFloat inp.currentHRV (activityAdjustedHRVBaseline * 0.4)
        activityAdjustedHRVBaseline 100 0) 0 100
  else 0

/-- Absolute GSR deviation from the adaptive baseline. -/
def fusionGsrDiff (inp : FusionInput) : ℚ :=
  |inp.currentGSR - inp.baselineGSR|

/-- Adaptive update of gsrMaxSwing: blended upward when the observed
deviation exceeds the current swing estimate. -/
def fusionGsrMaxSwing (inp : FusionInput) (s : FusionState) : ℚ :=
  if fusionGsrDiff inp > s.gsrMaxSwing then
    0.1 * fusionGsrDiff inp + 0.9 * s.gsrMaxSwing
  else s.gsrMaxSwing

/-- GSR score step: deviation normalized by the updated dynamic range,
clamped to the stress interval. -/
def fusionGsrScore (inp : FusionInput) (s : FusionState) : ℚ :=
  constrain (fusionGsrDiff inp / fusionGsrMaxSwing inp s * 100) 0 100

/-- Physiological-to-motion ratio step of calculateStressIndex. -/
def fusionPMR (inp : FusionInput) (s : FusionState) : ℚ :=
  let hrChange := |inp.currentHR - s.previousHR|
  let gsrChange := |inp.currentGSR - s.previousGSR|
  let normalizedMotion := inp.motionVariance + 0.001
  if normalizedMotion > 0.001 then
    constrain ((hrChange * 0.5 + gsrChange * 0.5) / normalizedMotion) 0 1000
  else (hrChange + gsrChange) * 10

/-- Raw stress blend: weighted HRV and GSR scores when HRV is available,
otherwise the GSR score alone. -/
def fusionRawStress (inp : FusionInput) (s : FusionState) : ℚ :=
  if hrvAvailable inp then
    0.6 * fusionHrvScore inp + 0.4 * fusionGsrScore inp s
  else fusionGsrScore inp s

/-- Activity weight selected from the activity level and the PMR. -/
def fusionActivityWeight (inp : FusionInput) (s : FusionState) : ℚ :=
  let pmr := fusionPMR inp s
  if inp.currentActivity = 3 then (if pmr > 50 then 0.4 else 0.3)
  else if inp.currentActivity = 2 then (if pmr > 30 then 0.6 else 0.5)
  else if inp.currentActivity = 1 then (if pmr > 20 then 0.9 else 0.8)
  else (if pmr > 15 then 1.1 else 1.0)

/-- Adjusted stress: activity-weighted raw stress clamped to the stress
interval before any smoothing. -/
def fusionAdjustedStress (inp : FusionInput) (s : FusionState) : ℚ :=
  constrain (fusionRawStress inp s * fusionActivityWeight inp s) 0 100

/-- Anxiety transient detector guarding the fast display smoothing. -/
def anxietyDetected (inp : FusionInput) (s : FusionState) : Prop :=
  fusionAdjustedStress inp s > 60 ∧
    |fusionAdjustedStress inp s - s.smoothedStressDisplay| > 10 ∧
    |fusionAdjustedStress inp s - s.previousAdjustedStress| > 6

instance (inp : FusionInput) (s : FusionState) :
    Decidable (anxietyDetected inp s) := by
  unfold anxietyDetected; infer_instance

/-- calculateStressIndex from DeviceCode.cpp, as a pure state transformer.
The returned stressIndex is the new smoothedStressData field and the global
stressIndexDisplay is the new smoothedStressDisplay field. -/
def calculateStressIndex (inp : FusionInput) (s : FusionState) : FusionState :=
  let adjustedStress := fusionAdjustedStress inp s
  let displayAlpha : ℚ := if anxietyDetected inp s then 0.90 else 0.40
  { gsrMaxSwing := fusionGsrMaxSwing inp s
    pmr := fusionPMR inp s
    previousHR := inp.currentHR
    previousGSR := inp.currentGSR
    smoothedStressData :=
      0.90 * adjustedStress + (1 - 0.90) * s.smoothedStressData
    smoothedStressDisplay :=
      displayAlpha * adjustedStress + (1 - displayAlpha) * s.smoothedStressDisplay
    previousAdjustedStress := adjustedStress }

/-- Initial fusion state at device startup: gsrMaxSwing = 100.0, all
smoothing statics and previous values zero. -/
def initialFusionState : FusionState :=
  { gsrMaxSwing := 100
    pmr := 0
    previousHR := 0
    previousGSR := 0
    smoothedStressData := 0
    smoothedStressDisplay := 0
    previousAdjustedStress := 0 }

/-- Run the fusion engine over a sequence of per-cycle inputs from the
startup state. -/
def runFusion (l : List FusionInput) : FusionState :=
  l.foldl (fun s inp => calculateStressIndex inp s) initialFusionState

/-- Capacity BUFFER_SIZE of the RR interval ring buffer. -/
def rrBufferSize : ℕ := 30

/-- State of the HRV estimator: the RR ring buffer with its write cursor
and logical count, plus the current RMSSD output and the slow personal
baseline.  The C array int rrBuffer[30] is modelled as a total function;
only indices reduced modulo 30 are ever read or written. -/
structure HRVState where
  rrBuffer : ℕ → ℤ
  head : ℕ
  count : ℕ
  currentHRV : ℚ
  longTermHRV : ℚ

/-- Ring index of the i-th oldest logical element:
(head - count + i + BUFFER_SIZE) % BUFFER_SIZE in the source, written with
the additive constant first so that the subtraction is exact for
count up to 30. -/
def rrIdx (head count i : ℕ) : ℕ :=
  (head + rrBufferSize - count + i) % rrBufferSize

/-- Logical contents of the RR ring buffer, oldest first. -/
def rrContents (s : HRVState) : List ℤ :=
  (List.range s.count).map (fun i => s.rrBuffer (rrIdx s.head s.count i))

/-- The slot read as prevBeat in addRRInterval:
rrBuffer[(head - 1 + BUFFER_SIZE) % BUFFER_SIZE]. -/
def rrPrevBeat (s : HRVState) : ℤ :=
  s.rrBuffer ((s.head + (rrBufferSize - 1)) % rrBufferSize)

/-- Outlier guard of addRRInterval: a value deviating from the preceding
stored interval by more than 20 percent is replaced by that interval. -/
def rrOutlierFilter (rrIntervalMs : ℤ) (s : HRVState) : ℤ :=
  if 0 < s.count ∧
      ((|rrIntervalMs - rrPrevBeat s| : ℤ) : ℚ) / (rrPrevBeat s : ℚ) > 0.20 then
    rrPrevBeat s
  else rrIntervalMs

/-- Ring insertion step of addRRInterval: write at the cursor, advance the
cursor modulo the capacity, saturate the count at the capacity. -/
def rrInsert (rr : ℤ) (s : HRVState) : HRVState :=
  { s with
    rrBuffer := Function.update s.rrBuffer s.head rr
    head := (s.head + 1) % rrBufferSize
    count := if s.count < rrBufferSize then s.count + 1 else s.count }

/-- Radicand of calculateRMSSD: sum of squared differences of consecutive
ring elements divided by count - 1, or 0 below two samples.  The returned
RMSSD is the square root of this value; the square root is kept abstract
throughout the development. -/
def calculateRMSSDSq (s : HRVState) : ℚ :=
  if s.count < 2 then 0
  else
    let sumSq : ℤ := (Finset.range (s.count - 1)).sum (fun i =>
      (s.rrBuffer (rrIdx s.head s.count (i + 1)) -
        s.rrBuffer (rrIdx s.head s.count i)) ^ 2)
    (sumSq : ℚ) / ((s.count : ℚ) - 1)

/-- addRRInterval from DeviceCode.cpp, parametric in the function sqrtQ
used for the C sqrt: outlier guard, ring insertion, then, once the warm-up
count is reached, the RMSSD update and the slow exponential baseline with
learning rate 0.01. -/
def addRRInterval (sqrtQ : ℚ → ℚ) (rrIntervalMs : ℤ) (s : HRVState) :
    HRVState :=
  let s' := rrInsert (rrOutlierFilter rrIntervalMs s) s
  if hrvWarmupCount ≤ s'.count then
    let hrv := sqrtQ (calculateRMSSDSq s')
    { s' with
      currentHRV := hrv
      longTermHRV := 0.01 * hrv + (1 - 0.01) * s.longTermHRV }
  else s'

/-- Spec-side sum of squared successive differences of a list. -/
def succDiffSqSum : List ℤ → ℤ
  | a :: b :: rest => (b - a) ^ 2 + succDiffSqSum (b :: rest)
  | _ => 0

/-- Spec-side RMSSD radicand: the mean of the squared successive
differences over all consecutive pairs of the list. -/
def meanSqSuccDiff (l : List ℤ) : ℚ :=
  (succDiffSqSum l : ℚ) / ((l.length : ℚ) - 1)

/-- A concrete two-element HRV state used to instantiate the RR theorems. -/
def rrStateA : HRVState :=
  { rrBuffer := fun _ => 800, head := 2, count := 2,
    currentHRV := 0, longTermHRV := 50 }

/-- 32-bit unsigned subtraction: the value of a - b on unsigned long for
operands below 2 to the 32.  The source computes the wrapped branch as
(0xFFFFFFFF - b) + a + 1, which is the same value. -/
def usub32 (a b : ℕ) : ℕ := (a + 2 ^ 32 - b) % 2 ^ 32

/-- Capacity PEAK_BUFFER_SIZE of the recent-peak-time ring. -/
def peakBufferSize : ℕ := 10

/-- State of the beat detector and BPM calculator: the peak-time ring with
cursor and count, the current BPM, the derivative and refractory tracking
variables, the adaptive running average, and the downstream HRV state fed
by the extracted RR intervals. -/
structure PeakState where
  peakTimes : ℕ → ℕ
  peakIndex : ℕ
  peakCount : ℕ
  currentBPM : ℚ
  lastPeakTime : ℕ
  lastBeatTime : ℕ
  lastValue : ℤ
  peakDetected : Bool
  runningAvg : ℤ
  sampleCount : ℕ
  hrv : HRVState

/-- Peak detection condition: rising signal above the adaptive threshold
(60 percent of the range above the minimum), not already armed, and more
than 300 ms since the previous detected peak.  The threshold comparison is
taken over the rationals; for the non-negative IR signal this agrees with
the C comparison of the long irValue against the truncated long
peakThreshold. -/
def peakDetectCond (irValue : ℤ) (currentTime : ℕ) (minValue maxValue : ℤ)
    (s : PeakState) : Prop :=
  s.lastValue < irValue ∧
    ((minValue : ℚ) + ((maxValue : ℚ) - (minValue : ℚ)) * 0.6 < (irValue : ℚ)) ∧
    s.peakDetected = false ∧
    300 < usub32 currentTime s.lastPeakTime

instance (irValue : ℤ) (currentTime : ℕ) (minValue maxValue : ℤ)
    (s : PeakState) :
    Decidable (peakDetectCond irValue currentTime minValue maxValue s) := by
  unfold peakDetectCond; infer_instance

/-- Interval between the stored peaks at ring offsets i and i+1 back from
the cursor: peakTimes[(peakIndex - i + 10) % 10] minus
peakTimes[(peakIndex - i - 1 + 10) % 10], as unsigned subtraction. -/
def peakPairInterval (pt : ℕ → ℕ) (pIdx i : ℕ) : ℕ :=
  usub32 (pt ((pIdx + peakBufferSize - i) % peakBufferSize))
    (pt ((pIdx + peakBufferSize - i - 1) % peakBufferSize))

/-- The intervals examined by the BPM loop, for i = 1 .. peakCount - 1. -/
def bpmIntervals (pt : ℕ → ℕ) (pIdx pc : ℕ) : List ℕ :=
  (List.range (pc - 1)).map (fun k => peakPairInterval pt pIdx (k + 1))

/-- The intervals the BPM loop accepts: strictly between 250 and 2000 ms. -/
def bpmValidIntervals (pt : ℕ → ℕ) (pIdx pc : ℕ) : List ℕ :=
  (bpmIntervals pt pIdx pc).filter (fun d => decide (250 < d ∧ d < 2000))

/-- BPM update of detectPeakAndCalculateBPM once at least three peaks are
stored: 60000 over the mean of the accepted intervals, zeroed outside 40
to 200; the previous BPM is kept when no interval is accepted. -/
def bpmFromPeaks (pt : ℕ → ℕ) (pIdx pc : ℕ) (prevBPM : ℚ) : ℚ :=
  let valid := bpmValidIntervals pt pIdx pc
  if 0 < valid.length then
    let avgInterval : ℚ := (valid.sum : ℚ) / (valid.length : ℚ)
    let bpm : ℚ := 60000 / avgInterval
    if bpm < 40 then 0 else if bpm > 200 then 0 else bpm
  else prevBPM

/-- detectPeakAndCalculateBPM from DeviceCode.cpp as a pure state
transformer, parametric in the sqrt function used by the HRV update.  The
running average uses C long division, truncation toward zero. -/
def detectPeakAndCalculateBPM (sqrtQ : ℚ → ℚ) (irValue : ℤ)
    (currentTime : ℕ) (minValue maxValue : ℤ) (s : PeakState) : PeakState :=
  let runningAvg' := Int.tdiv (s.runningAvg * (s.sampleCount : ℤ) + irValue)
    ((s.sampleCount : ℤ) + 1)
  let sampleCount' :=
    if 100 < s.sampleCount + 1 then 100 else s.sampleCount + 1
  let s1 :=
    if peakDetectCond irValue currentTime minValue maxValue s then
      let hrv' :=
        if 0 < s.lastBeatTime then
          let rrInterval := usub32 currentTime s.lastBeatTime
          if 300 ≤ rrInterval ∧ rrInterval ≤ 2000 then
            addRRInterval sqrtQ (rrInterval : ℤ) s.hrv
          else s.hrv
        else s.hrv
      let peakTimes' := Function.update s.peakTimes s.peakIndex currentTime
      let peakIndex' := (s.peakIndex + 1) % peakBufferSize
      let peakCount' :=
        if s.peakCount < peakBufferSize then s.peakCount + 1 else s.peakCount
      let currentBPM' :=
        if 3 ≤ peakCount' then
          bpmFromPeaks peakTimes' peakIndex' peakCount' s.currentBPM
        else s.currentBPM
      { s with
        peakDetected := true
        lastPeakTime := currentTime
        lastBeatTime := currentTime
        hrv := hrv'
        peakTimes := peakTimes'
        peakIndex := peakIndex'
        peakCount := peakCount'
        currentBPM := currentBPM' }
    else s
  let s2 := if irValue < s.lastValue then { s1 with peakDetected := false } else s1
  { s2 with
    lastValue := irValue
    runningAvg := runningAvg'
    sampleCount := sampleCount' }

/-- The last pc stored peak timestamps in chronological order, oldest
first: the entry k slots before the cursor is the k-th newest. -/
def chronPeakList (pt : ℕ → ℕ) (pIdx pc : ℕ) : List ℕ :=
  (List.range pc).map
    (fun k => pt ((pIdx + peakBufferSize - pc + k) % peakBufferSize))

/-- Consecutive peak-to-peak intervals of a timestamp list, as unsigned
differences. -/
def succIntervals (l : List ℕ) : List ℕ :=
  List.zipWith (fun a b => usub32 b a) l l.tail

/-- BPM as described by the specification sentence for C6: 60000 over the
mean of the valid consecutive peak-to-peak intervals, where a valid
interval lies in the half-open range 250 to 2000 including 250; outside
40 to 200 the result is discarded to 0; with no valid interval the
previous value is retained. -/
def claimBPMFromPeaks (pt : ℕ → ℕ) (pIdx pc : ℕ) (prevBPM : ℚ) : ℚ :=
  let valid := (succIntervals (chronPeakList pt pIdx pc)).filter
    (fun d => decide (250 ≤ d ∧ d < 2000))
  if 0 < valid.length then
    let avgInterval : ℚ := (valid.sum : ℚ) / (valid.length : ℚ)
    let bpm : ℚ := 60000 / avgInterval
    if bpm < 40 then 0 else if bpm > 200 then 0 else bpm
  else prevBPM

/-- Corrected BPM formula: identical to the claim formula except that an
interval of exactly 250 ms is rejected, as in the source comparison
interval > 250. -/
def specBPMFromPeaks (pt : ℕ → ℕ) (pIdx pc : ℕ) (prevBPM : ℚ) : ℚ :=
  let valid := (succIntervals (chronPeakList pt pIdx pc)).filter
    (fun d => decide (250 < d ∧ d < 2000))
  if 0 < valid.length then
    let avgInterval : ℚ := (valid.sum : ℚ) / (valid.length : ℚ)
    let bpm : ℚ := 60000 / avgInterval
    if bpm < 40 then 0 else if bpm > 200 then 0 else bpm
  else prevBPM

/-- All stored RR intervals lie in the physiological range 300 to 2000 ms. -/
def rrInRange (h : HRVState) : Prop :=
  ∀ v ∈ rrContents h, 300 ≤ v ∧ v ≤ 2000

/-- A concrete peak state holding two stored peaks 250 ms apart, used to
exhibit the boundary behaviour of the interval validity test. -/
def peakStateB : PeakState :=
  { peakTimes := fun j => if j = 0 then 1000 else if j = 1 then 1250 else 0
    peakIndex := 2
    peakCount := 2
    currentBPM := 0
    lastPeakTime := 1250
    lastBeatTime := 1250
    lastValue := 0
    peakDetected := false
    runningAvg := 0
    sampleCount := 0
    hrv := { rrBuffer := fun _ => 0, head := 0, count := 0,
             currentHRV := 0, longTermHRV := 50 } }

/-- The peak-time ring of peakStateB after the third peak is stored. -/
def ptB : ℕ → ℕ := fun j =>
  if j = 0 then 1000 else if j = 1 then 1250 else if j = 2 then 2250 else 0

/-- A concrete empty peak state used to instantiate the range invariant. -/
def peakStateC : PeakState :=
  { peakTimes := fun _ => 0
    peakIndex := 0
    peakCount := 0
    currentBPM := 0
    lastPeakTime := 0
    lastBeatTime := 0
    lastValue := 0
    peakDetected := false
    runningAvg := 0
    sampleCount := 0
    hrv := { rrBuffer := fun _ => 0, head := 0, count := 0,
             currentHRV := 0, longTermHRV := 50 } }

/-- SyncedTime from DeviceCode.cpp: wall-clock snapshot fields, the
millis() reference at which they were taken, and the validity flag that
stays false until the first external sync. -/
structure SyncedTimeS where
  hour : ℕ
  minute : ℕ
  second : ℕ
  day : ℕ
  month : ℕ
  year : ℕ
  millisAtSync : ℕ
  isValid : Bool
deriving DecidableEq

/-- The hour-minute-second triple reported by getCurrentTime. -/
structure TimeHMS where
  hour : ℕ
  minute : ℕ
  second : ℕ
deriving DecidableEq

/-- Elapsed milliseconds since the sync reference, with the explicit
wraparound branch of the source for the 32-bit millisecond counter
(0xFFFFFFFF - millisAtSync + currentMillis + 1). -/
def elapsedSinceSync (millisAtSync currentMillis : ℕ) : ℕ :=
  if millisAtSync ≤ currentMillis then currentMillis - millisAtSync
  else (2 ^ 32 - 1 - millisAtSync) + currentMillis + 1

/-- getCurrentTime from DeviceCode.cpp: zero before any sync, otherwise
the snapshot advanced by the elapsed milliseconds with seconds carried
into minutes, minutes into hours, and the hour reduced modulo 24. -/
def getCurrentTime (st : SyncedTimeS) (currentMillis : ℕ) : TimeHMS :=
  if st.isValid = false then { hour := 0, minute := 0, second := 0 }
  else
    let elapsedMillis := elapsedSinceSync st.millisAtSync currentMillis
    let elapsedSeconds := elapsedMillis / 1000
    let totalSeconds := st.second + elapsedSeconds
    let totalMinutes := st.minute + totalSeconds / 60
    let totalHours := st.hour + totalMinutes / 60
    { hour := totalHours % 24, minute := totalMinutes % 60,
      second := totalSeconds % 60 }

/-- Wraparound-safe modular tick difference: currentMillis minus the sync
tick, taken modulo 2 to the 32. -/
def specElapsed (currentMillis syncMillis : ℕ) : ℕ :=
  (currentMillis + 2 ^ 32 - syncMillis) % 2 ^ 32

/-- Spec-side clock for C7: the snapshot expressed in total seconds plus
the elapsed seconds, carried into minutes and hours, hour reduced modulo
24 with no carry into the date. -/
def specClock (st : SyncedTimeS) (currentMillis : ℕ) : TimeHMS :=
  let t := st.hour * 3600 + st.minute * 60 + st.second +
    specElapsed currentMillis st.millisAtSync / 1000
  { hour := t / 3600 % 24, minute := t / 60 % 60, second := t % 60 }

/-- State read and written by the command characteristic callback. -/
structure CmdState where
  syncedTime : SyncedTimeS
  lastSyncedDay : ℕ
  currentHour : ℤ
  bleHistoryDirty : Bool
deriving DecidableEq

/-- Little-endian year decoded from payload bytes 1 and 2; for byte
values below 256 this equals the source expression
(value[2] << 8) | value[1]. -/
def syncYear (value : List ℕ) : ℕ := value.getD 2 0 * 256 + value.getD 1 0

/-- Validation ranges applied to a time-sync payload by onWrite. -/
def timeSyncFieldsOk (value : List ℕ) : Prop :=
  2024 ≤ syncYear value ∧ syncYear value ≤ 2100 ∧
    1 ≤ value.getD 3 0 ∧ value.getD 3 0 ≤ 12 ∧
    1 ≤ value.getD 4 0 ∧ value.getD 4 0 ≤ 31 ∧
    value.getD 5 0 < 24 ∧ value.getD 6 0 < 60 ∧ value.getD 7 0 < 60

instance (value : List ℕ) : Decidable (timeSyncFieldsOk value) := by
  unfold timeSyncFieldsOk; infer_instance

/-- The SyncedTime record written by a valid time-sync command received
at tick m. -/
def decodedSyncedTime (value : List ℕ) (m : ℕ) : SyncedTimeS :=
  { year := syncYear value
    month := value.getD 3 0
    day := value.getD 4 0
    hour := value.getD 5 0
    minute := value.getD 6 0
    second := value.getD 7 0
    millisAtSync := m
    isValid := true }

/-- CommandCallbacks onWrite from DeviceCode.cpp over the received byte
list, at the current tick m: opcode 1 applies a validated time sync and
recomputes currentHour from the new snapshot, opcode 2 marks the history
buffers stale, anything else (and any invalid payload) leaves the state
unchanged. -/
def onWriteCommand (value : List ℕ) (m : ℕ) (s : CmdState) : CmdState :=
  if 0 < value.length then
    if value.getD 0 0 = 1 then
      if 8 ≤ value.length then
        if timeSyncFieldsOk value then
          let st := decodedSyncedTime value m
          { syncedTime := st
            lastSyncedDay := value.getD 4 0
            currentHour := ((getCurrentTime st m).hour : ℤ)
            bleHistoryDirty := s.bleHistoryDirty }
        else s
      else s
    else if value.getD 0 0 = 2 then { s with bleHistoryDirty := true }
    else s
  else s

/-- The startup syncedTime value: 2025-01-01 00:00:00, not yet valid. -/
def startupSyncedTime : SyncedTimeS :=
  { hour := 0, minute := 0, second := 0, day := 1, month := 1,
    year := 2025, millisAtSync := 0, isValid := false }

/-- A concrete command state prior to any sync, used as witness input. -/
def cmdStateA : CmdState :=
  { syncedTime := startupSyncedTime
    lastSyncedDay := 0
    currentHour := -1
    bleHistoryDirty := false }

/-- A time-sync payload with an out-of-range month field (13). -/
def cmdInvalid : List ℕ := [1, 232, 7, 13, 15, 14, 30, 0]

/-- A well-formed time-sync payload: 2024-06-15 14:30:00. -/
def cmdValid : List ℕ := [1, 232, 7, 6, 15, 14, 30, 0]

/-- A concrete synced snapshot used to instantiate the clock theorem. -/
def syncA : SyncedTimeS :=
  { hour := 14, minute := 30, second := 0, day := 15, month := 6,
    year := 2024, millisAtSync := 1000, isValid := true }

/-- HOURS_PER_DAY. -/
def hoursPerDay : ℕ := 24

/-- DAYS_TO_STORE. -/
def daysToStore : ℕ := 7

/-- HourlySummary from DeviceCode.cpp, the packed per-hour record.  Field
widths of the C struct (uint8 and uint16) are captured by range
hypotheses where a theorem needs them. -/
structure HourlySummaryS where
  hour : ℕ
  avgStress : ℕ
  peakStress : ℕ
  highStressMins : ℕ
  avgHR : ℕ
  avgHRV : ℕ
  avgGSR : ℕ
  sampleCount : ℕ
  avgActivityLevel : ℕ
deriving DecidableEq

/-- The all-zero hourly record produced by memset. -/
def defaultHS : HourlySummaryS :=
  { hour := 0, avgStress := 0, peakStress := 0, highStressMins := 0,
    avgHR := 0, avgHRV := 0, avgGSR := 0, sampleCount := 0,
    avgActivityLevel := 0 }

/-- HourlyAccumulator from DeviceCode.cpp. -/
structure AccumS where
  stressSum : ℕ
  hrSum : ℕ
  hrvSum : ℕ
  gsrSum : ℕ
  sampleCount : ℕ
  hrSampleCount : ℕ
  peakStress : ℕ
  highStressMins : ℕ
  lastMinute : ℕ
  highStressThisMinute : Bool
  activitySum : ℕ
deriving DecidableEq

/-- The accumulator reset performed at every hour boundary: memset to
zero followed by lastMinute = 255. -/
def resetAccum : AccumS :=
  { stressSum := 0, hrSum := 0, hrvSum := 0, gsrSum := 0, sampleCount := 0,
    hrSampleCount := 0, peakStress := 0, highStressMins := 0,
    lastMinute := 255, highStressThisMinute := false, activitySum := 0 }

/-- Persistent Preferences content relevant to the storage manager: the
persisted day index and the seven rotating day slots; a missing or
size-mismatched slot is None. -/
structure PrefsS where
  currentDay : ℕ
  days : List (Option (List HourlySummaryS))
deriving DecidableEq

/-- Global device state threaded through the storage manager. -/
structure DeviceState where
  syncedTime : SyncedTimeS
  currentHour : ℤ
  currentDay : ℕ
  lastSyncedDay : ℕ
  todayData : List HourlySummaryS
  hourAccum : AccumS
  prefs : PrefsS
  bleHistoryDirty : Bool
deriving DecidableEq

/-- The empty in-memory day buffer: all hours zeroed with the hour fields
pre-filled 0 to 23. -/
def emptyDayData : List HourlySummaryS :=
  (List.range hoursPerDay).map (fun i => { defaultHS with hour := i })

/-- saveHourlyData from DeviceCode.cpp: finalize the accumulator into the
hour record of todayData and persist the whole current-day record set
under the current day index; out-of-range hour or an empty accumulator
saves nothing. -/
def saveHourlyData (hour : ℤ) (s : DeviceState) : DeviceState :=
  if hour < 0 ∨ (hoursPerDay : ℤ) ≤ hour then s
  else if s.hourAccum.sampleCount = 0 then s
  else
    let h := hour.toNat
    let summary : HourlySummaryS :=
      { hour := h
        avgStress := s.hourAccum.stressSum / s.hourAccum.sampleCount
        peakStress := s.hourAccum.peakStress
        highStressMins := s.hourAccum.highStressMins
        avgHR := if 0 < s.hourAccum.hrSampleCount then
            s.hourAccum.hrSum / s.hourAccum.hrSampleCount else 0
        avgHRV := if 0 < s.hourAccum.hrSampleCount then
            s.hourAccum.hrvSum / s.hourAccum.hrSampleCount else 0
        avgGSR := s.hourAccum.gsrSum / s.hourAccum.sampleCount
        sampleCount := s.hourAccum.sampleCount
        avgActivityLevel := s.hourAccum.activitySum / s.hourAccum.sampleCount }
    let today2 := s.todayData.set h summary
    { s with
      todayData := today2
      prefs := { s.prefs with
        days := s.prefs.days.set s.currentDay (some today2) } }

/-- The day-rollover actions: advance the day index modulo 7, persist the
new index, reset the in-memory day buffer to empty. -/
def applyDayRollover (s : DeviceState) : DeviceState :=
  { s with
    currentDay := (s.currentDay + 1) % daysToStore
    prefs := { s.prefs with currentDay := (s.currentDay + 1) % daysToStore }
    todayData := emptyDayData }

/-- The hour value checkHourChange compares against: synced clock when
valid, else the millis-derived hour. -/
def hourChangeNewHour (m : ℕ) (s : DeviceState) : ℤ :=
  if s.syncedTime.isValid = true then
    ((getCurrentTime s.syncedTime m).hour : ℤ)
  else (((m / 3600000) % 24 : ℕ) : ℤ)

/-- checkHourChange from DeviceCode.cpp at tick m: adopt the hour on the
first call, otherwise on an hour transition save the finished hour, mark
the export caches stale, reset the accumulator, and detect day rollover —
from the synchronized day-of-month when synced, from the 23 to 0 hour
transition otherwise. -/
def checkHourChange (m : ℕ) (s : DeviceState) : DeviceState :=
  let newHour := hourChangeNewHour m s
  if s.currentHour = -1 then { s with currentHour := newHour }
  else if newHour ≠ s.currentHour then
    let oldHour := s.currentHour
    let s1 := saveHourlyData s.currentHour s
    let s2 := { s1 with
      bleHistoryDirty := true
      hourAccum := resetAccum
      currentHour := newHour }
    if s.syncedTime.isValid = true then
      if s.syncedTime.day ≠ s.lastSyncedDay then
        applyDayRollover { s2 with lastSyncedDay := s.syncedTime.day }
      else s2
    else
      if newHour = 0 ∧ oldHour = 23 then applyDayRollover s2 else s2
  else s

/-- Day-rollover detection condition of checkHourChange, per mode. -/
def dayRolloverCond (m : ℕ) (s : DeviceState) : Prop :=
  if s.syncedTime.isValid = true then s.syncedTime.day ≠ s.lastSyncedDay
  else hourChangeNewHour m s = 0 ∧ s.currentHour = 23

instance (m : ℕ) (s : DeviceState) : Decidable (dayRolloverCond m s) := by
  unfold dayRolloverCond
  split <;> infer_instance

/-- n simulated hour checks, the k-th arriving at tick (k+1) hours. -/
def runHourChecks (n : ℕ) (s : DeviceState) : DeviceState :=
  (List.range n).foldl (fun st k => checkHourChange ((k + 1) * 3600000) st) s

/-- Unsynced device state at hour 0 of day index d with an empty
accumulator and an empty day buffer. -/
def initialDayState (d : ℕ) : DeviceState :=
  { syncedTime := startupSyncedTime
    currentHour := 0
    currentDay := d
    lastSyncedDay := 0
    todayData := emptyDayData
    hourAccum := resetAccum
    prefs := { currentDay := d, days := List.replicate daysToStore none }
    bleHistoryDirty := true }

/-- A synced snapshot sitting just before midnight. -/
def c2SyncedTime : SyncedTimeS :=
  { hour := 23, minute := 0, second := 0, day := 15, month := 6,
    year := 2025, millisAtSync := 0, isValid := true }

/-- A synced device state at hour 23 whose synced day equals the last
recorded synced day: the next hour transition crosses midnight without a
day-of-month change. -/
def c2State : DeviceState :=
  { syncedTime := c2SyncedTime
    currentHour := 23
    currentDay := 2
    lastSyncedDay := 15
    todayData := emptyDayData
    hourAccum := resetAccum
    prefs := { currentDay := 2, days := List.replicate daysToStore none }
    bleHistoryDirty := false }

/-- The same synced state with a stale lastSyncedDay, so the next hour
transition detects a day-of-month change. -/
def c2StateB : DeviceState :=
  { c2State with lastSyncedDay := 14 }

/-- One 10-byte today-record entry as written by packTodayData: byte
fields verbatim, the two u16 fields split little-endian, and a flags byte
whose bit 0 is the validity bit and whose bits 1 and 2 hold the activity
level ((avgActivityLevel & 0x03) << 1, written arithmetically: the two
summands occupy disjoint bits, so the C bitwise or is addition). -/
def encTodayEntry (r : HourlySummaryS) : List ℕ :=
  [r.hour, r.avgStress, r.peakStress, r.highStressMins, r.avgHR,
    r.avgHRV % 256, r.avgHRV / 256 % 256, r.avgGSR % 256, r.avgGSR / 256 % 256,
    (if 0 < r.sampleCount then 1 else 0) + r.avgActivityLevel % 4 * 2]

/-- packTodayData from DeviceCode.cpp: 24 consecutive 10-byte entries. -/
def packTodayData (d : List HourlySummaryS) : List ℕ :=
  ((List.range hoursPerDay).map (fun i => encTodayEntry (d.getD i defaultHS))).flatten

/-- The fields recovered from a 10-byte today-record entry. -/
structure TodayEntry where
  hour : ℕ
  avgStress : ℕ
  peakStress : ℕ
  highStressMins : ℕ
  avgHR : ℕ
  avgHRV : ℕ
  avgGSR : ℕ
  validBit : ℕ
  activity : ℕ
deriving DecidableEq

/-- Byte-for-byte decoder of entry i of a packed today buffer: single
bytes verbatim, u16 fields recombined little-endian, validity from flags
bit 0 and activity from flags bits 1 and 2. -/
def decTodayEntry (buf : List ℕ) (i : ℕ) : TodayEntry :=
  { hour := buf.getD (i * 10) 0
    avgStress := buf.getD (i * 10 + 1) 0
    peakStress := buf.getD (i * 10 + 2) 0
    highStressMins := buf.getD (i * 10 + 3) 0
    avgHR := buf.getD (i * 10 + 4) 0
    avgHRV := buf.getD (i * 10 + 5) 0 + 256 * buf.getD (i * 10 + 6) 0
    avgGSR := buf.getD (i * 10 + 7) 0 + 256 * buf.getD (i * 10 + 8) 0
    validBit := buf.getD (i * 10 + 9) 0 % 2
    activity := buf.getD (i * 10 + 9) 0 / 2 % 4 }

/-- The decoded entry the round trip must reproduce for a record r. -/
def expectedTodayEntry (r : HourlySummaryS) : TodayEntry :=
  { hour := r.hour
    avgStress := r.avgStress
    peakStress := r.peakStress
    highStressMins := r.highStressMins
    avgHR := r.avgHR
    avgHRV := r.avgHRV
    avgGSR := r.avgGSR
    validBit := if 0 < r.sampleCount then 1 else 0
    activity := r.avgActivityLevel }

/-- The field widths guaranteed by the C struct types of HourlySummary:
uint8 single-byte fields, uint16 for avgHRV and avgGSR, and an activity
level of at most 3. -/
def hsInRange (r : HourlySummaryS) : Prop :=
  r.hour < 256 ∧ r.avgStress < 256 ∧ r.peakStress < 256 ∧
    r.highStressMins < 256 ∧ r.avgHR < 256 ∧ r.avgHRV < 65536 ∧
    r.avgGSR < 65536 ∧ r.avgActivityLevel < 4

instance (r : HourlySummaryS) : Decidable (hsInRange r) := by
  unfold hsInRange; infer_instance

/-- Running aggregate of packWeekData for one day: sums and valid-hour
count in uint32 (no overflow for 24 bounded hours), the running peak and
its hour, and the uint8 high-stress-minute accumulator, kept reduced
modulo 256 as the C uint8 addition does. -/
structure WeekAgg where
  stressSum : ℕ
  hrSum : ℕ
  hrvSum : ℕ
  peakStress : ℕ
  peakHour : ℕ
  highMins : ℕ
  validHours : ℕ
deriving DecidableEq

/-- The zero-initialized aggregate. -/
def initWeekAgg : WeekAgg :=
  { stressSum := 0, hrSum := 0, hrvSum := 0, peakStress := 0,
    peakHour := 0, highMins := 0, validHours := 0 }

/-- One hour of the aggregation loop of packWeekData: hours with zero
sample count are skipped; the peak updates only on strict improvement. -/
def weekAggStep (h : ℕ) (r : HourlySummaryS) (a : WeekAgg) : WeekAgg :=
  if 0 < r.sampleCount then
    { stressSum := a.stressSum + r.avgStress
      hrSum := a.hrSum + r.avgHR
      hrvSum := a.hrvSum + r.avgHRV
      peakStress := if a.peakStress < r.peakStress then r.peakStress
        else a.peakStress
      peakHour := if a.peakStress < r.peakStress then h else a.peakHour
      highMins := (a.highMins + r.highStressMins) % 256
      validHours := a.validHours + 1 }
  else a

/-- The aggregation loop over the first n hours of a day record set. -/
def weekAggN (day : List HourlySummaryS) (n : ℕ) : WeekAgg :=
  (List.range n).foldl (fun a h => weekAggStep h (day.getD h defaultHS) a)
    initWeekAgg

/-- The full-day aggregate of packWeekData. -/
def weekAgg (day : List HourlySummaryS) : WeekAgg := weekAggN day hoursPerDay

/-- One 10-byte week-record entry as written by packWeekData. -/
def encWeekEntry (dd : ℕ) (a : WeekAgg) : List ℕ :=
  [dd,
    if 0 < a.validHours then a.stressSum / a.validHours else 0,
    a.peakStress, a.peakHour, a.highMins,
    if 0 < a.validHours then a.hrSum / a.validHours else 0,
    if 0 < a.validHours then a.hrvSum / a.validHours % 256 else 0,
    if 0 < a.validHours then a.hrvSum / a.validHours / 256 % 256 else 0,
    0,
    if 0 < a.validHours then 1 else 0]

/-- packWeekData from DeviceCode.cpp: 7 consecutive 10-byte entries, a
missing or size-mismatched persisted slot aggregating as all-zero. -/
def packWeekData (days : List (Option (List HourlySummaryS))) : List ℕ :=
  ((List.range daysToStore).map (fun dd =>
    encWeekEntry dd (match days.getD dd none with
      | some dayData => weekAgg dayData
      | none => initWeekAgg))).flatten

/-- The hours of the first n slots with nonzero sample count, ascending. -/
def validHoursIdxN (day : List HourlySummaryS) (n : ℕ) : List ℕ :=
  (List.range n).filter (fun h => decide (0 < (day.getD h defaultHS).sampleCount))

/-- The valid hours of a full day, ascending. -/
def validHoursIdx (day : List HourlySummaryS) : List ℕ :=
  validHoursIdxN day hoursPerDay

/-- Sum of a field over the valid hours of a day. -/
def weekFieldSum (f : HourlySummaryS → ℕ) (day : List HourlySummaryS) : ℕ :=
  ((validHoursIdx day).map (fun h => f (day.getD h defaultHS))).sum

/-- Maximum hourly peak stress over the valid hours of a day. -/
def weekPeakMax (day : List HourlySummaryS) : ℕ :=
  ((validHoursIdx day).map (fun h => (day.getD h defaultHS).peakStress)).foldl
    max 0

/-- The peak hour reported by the aggregation: the earliest valid hour
whose peak stress equals the maximum, when that maximum is positive, and
0 otherwise. -/
def weekPeakHourSpec (day : List HourlySummaryS) : ℕ :=
  if weekPeakMax day = 0 then 0
  else ((validHoursIdx day).filter (fun h =>
    decide ((day.getD h defaultHS).peakStress = weekPeakMax day))).headD 0

/-- Integer mean of avgStress over the valid hours, 0 with none. -/
def weekStressMean (day : List HourlySummaryS) : ℕ :=
  if 0 < (validHoursIdx day).length then
    weekFieldSum (fun r => r.avgStress) day / (validHoursIdx day).length
  else 0

/-- Integer mean of avgHR over the valid hours, 0 with none. -/
def weekHRMean (day : List HourlySummaryS) : ℕ :=
  if 0 < (validHoursIdx day).length then
    weekFieldSum (fun r => r.avgHR) day / (validHoursIdx day).length
  else 0

/-- Integer mean of avgHRV over the valid hours, 0 with none. -/
def weekHRVMean (day : List HourlySummaryS) : ℕ :=
  if 0 < (validHoursIdx day).length then
    weekFieldSum (fun r => r.avgHRV) day / (validHoursIdx day).length
  else 0

/-- A concrete day record set: hour 0 stores a stray peak with zero
sample count, hours 1 to 5 are valid with 60 high-stress minutes each and
zero peak stress. -/
def c9Day : List HourlySummaryS :=
  (List.range hoursPerDay).map (fun h =>
    if h = 0 then { defaultHS with peakStress := 7 }
    else if h ≤ 5 then
      { defaultHS with hour := h, sampleCount := 1, highStressMins := 60 }
    else { defaultHS with hour := h })

/-- Persisted slots holding only the day above in slot 0. -/
def c9Days : List (Option (List HourlySummaryS)) :=
  [some c9Day, none, none, none, none, none, none]

theorem constrain_mem (x lo hi : ℚ) (h : lo ≤ hi) :
    lo ≤ constrain x lo hi ∧ constrain x lo hi ≤ hi := by
  unfold constrain
  split
  · exact ⟨le_refl _, h⟩
  · split
    · exact ⟨h, le_refl _⟩
    · constructor <;> linarith [not_lt.mp (by assumption : ¬ x < lo)]

theorem smooth_mem (a x y : ℚ) (ha0 : 0 ≤ a) (ha1 : a ≤ 1)
    (hx0 : 0 ≤ x) (hx1 : x ≤ 100) (hy0 : 0 ≤ y) (hy1 : y ≤ 100) :
    0 ≤ a * x + (1 - a) * y ∧ a * x + (1 - a) * y ≤ 100 := by
  constructor
  · have h1 : 0 ≤ a * x := mul_nonneg ha0 hx0
    have h2 : 0 ≤ (1 - a) * y := mul_nonneg (by linarith) hy0
    linarith
  · have h1 : a * x ≤ a * 100 := mul_le_mul_of_nonneg_left hx1 ha0
    have h2 : (1 - a) * y ≤ (1 - a) * 100 :=
      mul_le_mul_of_nonneg_left hy1 (by linarith)
    linarith

theorem fusionAdjustedStress_mem (inp : FusionInput) (s : FusionState) :
    0 ≤ fusionAdjustedStress inp s ∧ fusionAdjustedStress inp s ≤ 100 :=
  constrain_mem _ 0 100 (by norm_num)

/-- One fusion cycle keeps both smoothed stress values inside the stress
interval. -/
theorem calculateStressIndex_mem (inp : FusionInput) (s : FusionState)
    (hd0 : 0 ≤ s.smoothedStressData) (hd1 : s.smoothedStressData ≤ 100)
    (hp0 : 0 ≤ s.smoothedStressDisplay) (hp1 : s.smoothedStressDisplay ≤ 100) :
    0 ≤ (calculateStressIndex inp s).smoothedStressData ∧
      (calculateStressIndex inp s).smoothedStressData ≤ 100 ∧
      0 ≤ (calculateStressIndex inp s).smoothedStressDisplay ∧
      (calculateStressIndex inp s).smoothedStressDisplay ≤ 100 := by
  obtain ⟨ha0, ha1⟩ := fusionAdjustedStress_mem inp s
  have hdata := smooth_mem 0.90 (fusionAdjustedStress inp s)
    s.smoothedStressData (by norm_num) (by norm_num) ha0 ha1 hd0 hd1
  have halpha : 0 ≤ (if anxietyDetected inp s then (0.90 : ℚ) else 0.40) ∧
      (if anxietyDetected inp s then (0.90 : ℚ) else 0.40) ≤ 1 := by
    split <;> norm_num
  have hdisp := smooth_mem (if anxietyDetected inp s then 0.90 else 0.40)
    (fusionAdjustedStress inp s) s.smoothedStressDisplay
    halpha.1 halpha.2 ha0 ha1 hp0 hp1
  simp only [calculateStressIndex]
  exact ⟨hdata.1, hdata.2, hdisp.1, hdisp.2⟩

/-- C1: over every sequence of sensor inputs, both the data-path stress
value and the display-path stress value (both starting at 0) stay in
the interval from 0 to 100: the adjusted stress is clamped before
smoothing and both exponential-smoothing updates preserve the interval. -/
theorem stressIndex_always_in_range (l : List FusionInput) :
    0 ≤ (runFusion l).smoothedStressData ∧
      (runFusion l).smoothedStressData ≤ 100 ∧
      0 ≤ (runFusion l).smoothedStressDisplay ∧
      (runFusion l).smoothedStressDisplay ≤ 100 := by
  suffices h : ∀ (s : FusionState), 0 ≤ s.smoothedStressData →
      s.smoothedStressData ≤ 100 → 0 ≤ s.smoothedStressDisplay →
      s.smoothedStressDisplay ≤ 100 →
      0 ≤ (l.foldl (fun s inp => calculateStressIndex inp s) s).smoothedStressData ∧
        (l.foldl (fun s inp => calculateStressIndex inp s) s).smoothedStressData ≤ 100 ∧
        0 ≤ (l.foldl (fun s inp => calculateStressIndex inp s) s).smoothedStressDisplay ∧
        (l.foldl (fun s inp => calculateStressIndex inp s) s).smoothedStressDisplay ≤ 100 by
    exact h initialFusionState (by norm_num [initialFusionState])
      (by norm_num [initialFusionState]) (by norm_num [initialFusionState])
      (by norm_num [initialFusionState])
  induction l with
  | nil => intro s h0 h1 h2 h3; exact ⟨h0, h1, h2, h3⟩
  | cons a t ih =>
      intro s h0 h1 h2 h3
      obtain ⟨g0, g1, g2, g3⟩ := calculateStressIndex_mem a s h0 h1 h2 h3
      exact ih (calculateStressIndex a s) g0 g1 g2 g3

theorem succDiffSqSum_eq_sum (l : List ℤ) :
    succDiffSqSum l = (Finset.range (l.length - 1)).sum
      (fun i => (l.getD (i + 1) 0 - l.getD i 0) ^ 2) := by
  induction l with
  | nil => simp [succDiffSqSum]
  | cons a t ih =>
      cases t with
      | nil => simp [succDiffSqSum]
      | cons b t' =>
          rw [succDiffSqSum, ih]
          simp only [List.length_cons, Nat.add_sub_cancel]
          rw [Finset.sum_range_succ']
          simp [List.getD_cons_succ, List.getD_cons_zero]
          ring

theorem rrContents_length (s : HRVState) : (rrContents s).length = s.count := by
  simp [rrContents]

theorem rrContents_getD (s : HRVState) (i : ℕ) (hi : i < s.count) :
    (rrContents s).getD i 0 = s.rrBuffer (rrIdx s.head s.count i) := by
  rw [List.getD_eq_getElem _ _ (by simpa [rrContents_length] using hi)]
  simp [rrContents]

theorem calculateRMSSDSq_eq_meanSq (s : HRVState) :
    calculateRMSSDSq s = meanSqSuccDiff (rrContents s) := by
  by_cases h2 : s.count < 2
  · have h : s.count = 0 ∨ s.count = 1 := by omega
    rcases h with h | h <;>
      simp [calculateRMSSDSq, meanSqSuccDiff, rrContents, h, succDiffSqSum]
  · push_neg at h2
    have hsum : succDiffSqSum (rrContents s) =
        (Finset.range (s.count - 1)).sum (fun i =>
          (s.rrBuffer (rrIdx s.head s.count (i + 1)) -
            s.rrBuffer (rrIdx s.head s.count i)) ^ 2) := by
      rw [succDiffSqSum_eq_sum, rrContents_length]
      refine Finset.sum_congr rfl (fun i hi => ?_)
      have hi' : i < s.count - 1 := Finset.mem_range.mp hi
      rw [rrContents_getD s i (by omega), rrContents_getD s (i + 1) (by omega)]
    rw [meanSqSuccDiff, hsum, rrContents_length, calculateRMSSDSq,
      if_neg (by omega)]

theorem calculateRMSSDSq_nonneg (s : HRVState) : 0 ≤ calculateRMSSDSq s := by
  unfold calculateRMSSDSq
  split
  · exact le_refl 0
  · apply div_nonneg
    · exact_mod_cast Finset.sum_nonneg (fun i _ => sq_nonneg _)
    · have h : 2 ≤ s.count := by omega
      have : (2 : ℚ) ≤ (s.count : ℚ) := by exact_mod_cast h
      linarith

/-- C4: the radicand computed by calculateRMSSD equals the mean of the
squared successive differences over all consecutive pairs currently in
the buffer, and is non-negative, so the RMSSD (its square root) equals
the spec formula and is non-negative; and no HRV output is produced
(currentHRV and the longTermHRV baseline are untouched) before the
warm-up count of 20 stored intervals is reached, while at and past the
warm-up the HRV output is exactly the square root of that mean. -/
theorem rmssd_spec_and_warmup (sqrtQ : ℚ → ℚ) (x : ℤ) (s : HRVState) :
    (calculateRMSSDSq s = meanSqSuccDiff (rrContents s) ∧
      0 ≤ calculateRMSSDSq s)
    ∧ ((rrInsert (rrOutlierFilter x s) s).count < hrvWarmupCount →
        (addRRInterval sqrtQ x s).currentHRV = s.currentHRV ∧
        (addRRInterval sqrtQ x s).longTermHRV = s.longTermHRV)
    ∧ (hrvWarmupCount ≤ (rrInsert (rrOutlierFilter x s) s).count →
        (addRRInterval sqrtQ x s).currentHRV =
          sqrtQ (meanSqSuccDiff
            (rrContents (rrInsert (rrOutlierFilter x s) s)))) := by
  refine ⟨⟨calculateRMSSDSq_eq_meanSq s, calculateRMSSDSq_nonneg s⟩, ?_, ?_⟩
  · intro h
    unfold addRRInterval
    rw [if_neg (by omega)]
    exact ⟨by simp [rrInsert], by simp [rrInsert]⟩
  · intro h
    unfold addRRInterval
    rw [if_pos h]
    simp [calculateRMSSDSq_eq_meanSq]

theorem rmssd_spec_and_warmup_witness :
    calculateRMSSDSq rrStateA = meanSqSuccDiff (rrContents rrStateA) ∧
      (addRRInterval (fun q => q) 800 rrStateA).currentHRV =
        rrStateA.currentHRV :=
  ⟨(rmssd_spec_and_warmup (fun q => q) 800 rrStateA).1.1,
    ((rmssd_spec_and_warmup (fun q => q) 800 rrStateA).2.1 (by decide)).1⟩

/-- C5: for every added RR interval, when the buffer is non-empty and the
new interval deviates from the immediately preceding stored interval by
more than 20 percent, the preceding value is stored in its place;
otherwise, and on an empty buffer, the interval is stored unchanged; the
slot is consumed either way (cursor advances, count grows up to
saturation) and no other slot is modified. -/
theorem rr_outlier_inserted_in_place (sqrtQ : ℚ → ℚ) (x : ℤ) (s : HRVState) :
    ((addRRInterval sqrtQ x s).rrBuffer s.head =
      (if 0 < s.count ∧
          ((|x - rrPrevBeat s| : ℤ) : ℚ) / (rrPrevBeat s : ℚ) > 0.20 then
        rrPrevBeat s else x))
    ∧ (s.count = 0 → (addRRInterval sqrtQ x s).rrBuffer s.head = x)
    ∧ (addRRInterval sqrtQ x s).head = (s.head + 1) % rrBufferSize
    ∧ (addRRInterval sqrtQ x s).count =
        (if s.count < rrBufferSize then s.count + 1 else s.count)
    ∧ ∀ j, j ≠ s.head → (addRRInterval sqrtQ x s).rrBuffer j = s.rrBuffer j := by
  have hbuf : (addRRInterval sqrtQ x s).rrBuffer =
      Function.update s.rrBuffer s.head (rrOutlierFilter x s) := by
    simp only [addRRInterval]
    split <;> simp [rrInsert]
  have hhead : (addRRInterval sqrtQ x s).head = (s.head + 1) % rrBufferSize := by
    simp only [addRRInterval]
    split <;> simp [rrInsert]
  have hcount : (addRRInterval sqrtQ x s).count =
      (if s.count < rrBufferSize then s.count + 1 else s.count) := by
    simp only [addRRInterval]
    split <;> simp [rrInsert]
  refine ⟨?_, ?_, hhead, hcount, ?_⟩
  · rw [hbuf, Function.update_same, rrOutlierFilter]
  · intro h0
    rw [hbuf, Function.update_same, rrOutlierFilter, if_neg]
    simp [h0]
  · intro j hj
    rw [hbuf, Function.update_noteq hj]

theorem rr_outlier_inserted_in_place_witness :
    (addRRInterval (fun q => q) 900 rrStateA).rrBuffer rrStateA.head = 900 ∧
      (addRRInterval (fun q => q) 900 rrStateA).rrBuffer 5 =
        rrStateA.rrBuffer 5 := by
  have h := rr_outlier_inserted_in_place (fun q => q) 900 rrStateA
  refine ⟨?_, h.2.2.2.2 5 (by decide)⟩
  rw [h.1, if_neg]
  simp only [rrStateA, rrPrevBeat, rrBufferSize]
  norm_num

theorem addRRInterval_fields (sqrtQ : ℚ → ℚ) (x : ℤ) (s : HRVState) :
    (addRRInterval sqrtQ x s).rrBuffer =
        Function.update s.rrBuffer s.head (rrOutlierFilter x s) ∧
      (addRRInterval sqrtQ x s).head = (s.head + 1) % rrBufferSize ∧
      (addRRInterval sqrtQ x s).count =
        (if s.count < rrBufferSize then s.count + 1 else s.count) := by
  simp only [addRRInterval]
  split <;> exact ⟨rfl, rfl, rfl⟩

theorem rrContents_ext (a b : HRVState) (h1 : a.rrBuffer = b.rrBuffer)
    (h2 : a.head = b.head) (h3 : a.count = b.count) :
    rrContents a = rrContents b := by
  unfold rrContents
  rw [h1, h2, h3]

theorem rrPrevBeat_mem (s : HRVState) (h0 : 0 < s.count)
    (hc : s.count ≤ rrBufferSize) : rrPrevBeat s ∈ rrContents s := by
  unfold rrContents rrPrevBeat
  refine List.mem_map.mpr ⟨s.count - 1, List.mem_range.mpr (by omega), ?_⟩
  have h : rrIdx s.head s.count (s.count - 1) =
      (s.head + (rrBufferSize - 1)) % rrBufferSize := by
    unfold rrIdx rrBufferSize
    unfold rrBufferSize at hc
    omega
  rw [h]

theorem rrOutlierFilter_cases (x : ℤ) (s : HRVState) :
    rrOutlierFilter x s = x ∨
      (0 < s.count ∧ rrOutlierFilter x s = rrPrevBeat s) := by
  unfold rrOutlierFilter
  split
  · next h => exact Or.inr ⟨h.1, rfl⟩
  · exact Or.inl rfl

theorem rrContents_rrInsert_mem (y : ℤ) (s : HRVState)
    (hhd : s.head < rrBufferSize) (hcnt : s.count ≤ rrBufferSize) :
    ∀ v ∈ rrContents (rrInsert y s), v = y ∨ v ∈ rrContents s := by
  intro v hv
  have hC : rrContents (rrInsert y s) =
      (List.range (if s.count < rrBufferSize then s.count + 1 else s.count)).map
        (fun i => Function.update s.rrBuffer s.head y
          (rrIdx ((s.head + 1) % rrBufferSize)
            (if s.count < rrBufferSize then s.count + 1 else s.count) i)) := rfl
  rw [hC] at hv
  obtain ⟨i, hi, hveq⟩ := List.mem_map.mp hv
  have hi' := List.mem_range.mp hi
  by_cases hlt : s.count < rrBufferSize
  · rw [if_pos hlt] at hveq
    rw [if_pos hlt] at hi'
    by_cases hieq : i = s.count
    · left
      have hidx : rrIdx ((s.head + 1) % rrBufferSize) (s.count + 1) i =
          s.head := by
        subst hieq
        unfold rrIdx rrBufferSize
        unfold rrBufferSize at hlt hhd
        omega
      rw [hidx, Function.update_same] at hveq
      exact hveq.symm
    · right
      have hidx : rrIdx ((s.head + 1) % rrBufferSize) (s.count + 1) i =
          rrIdx s.head s.count i := by
        unfold rrIdx rrBufferSize
        unfold rrBufferSize at hlt hhd
        omega
      have hne : rrIdx s.head s.count i ≠ s.head := by
        unfold rrIdx rrBufferSize
        unfold rrBufferSize at hlt hhd
        omega
      rw [hidx, Function.update_noteq hne] at hveq
      exact hveq ▸ List.mem_map.mpr
        ⟨i, List.mem_range.mpr (by omega), rfl⟩
  · have hceq : s.count = rrBufferSize := by omega
    rw [if_neg hlt] at hveq
    rw [if_neg hlt] at hi'
    by_cases hieq : i = rrBufferSize - 1
    · left
      have hidx : rrIdx ((s.head + 1) % rrBufferSize) s.count i = s.head := by
        unfold rrIdx rrBufferSize
        unfold rrBufferSize at hceq hhd
        omega
      rw [hidx, Function.update_same] at hveq
      exact hveq.symm
    · right
      have hidx : rrIdx ((s.head + 1) % rrBufferSize) s.count i =
          rrIdx s.head s.count (i + 1) := by
        unfold rrIdx rrBufferSize
        unfold rrBufferSize at hceq hhd
        omega
      have hne : rrIdx s.head s.count (i + 1) ≠ s.head := by
        unfold rrIdx rrBufferSize
        unfold rrBufferSize at hceq hhd hieq
        omega
      rw [hidx, Function.update_noteq hne] at hveq
      exact hveq ▸ List.mem_map.mpr
        ⟨i + 1, List.mem_range.mpr (by omega), rfl⟩

theorem addRRInterval_preserves (sqrtQ : ℚ → ℚ) (x : ℤ) (s : HRVState)
    (hinv : rrInRange s) (hx : 300 ≤ x ∧ x ≤ 2000)
    (hhd : s.head < rrBufferSize) (hcnt : s.count ≤ rrBufferSize) :
    rrInRange (addRRInterval sqrtQ x s) ∧
      (addRRInterval sqrtQ x s).head < rrBufferSize ∧
      (addRRInterval sqrtQ x s).count ≤ rrBufferSize := by
  obtain ⟨hbuf, hhead, hcount⟩ := addRRInterval_fields sqrtQ x s
  refine ⟨?_, ?_, ?_⟩
  · intro v hv
    have hcc : rrContents (addRRInterval sqrtQ x s) =
        rrContents (rrInsert (rrOutlierFilter x s) s) := by
      apply rrContents_ext
      · rw [hbuf]; rfl
      · rw [hhead]; rfl
      · rw [hcount]; rfl
    rw [hcc] at hv
    rcases rrContents_rrInsert_mem (rrOutlierFilter x s) s hhd hcnt v hv with
      hvy | hvmem
    · rcases rrOutlierFilter_cases x s with hfx | ⟨h0, hfp⟩
      · rw [hvy, hfx]; exact hx
      · rw [hvy, hfp]
        exact hinv _ (rrPrevBeat_mem s h0 hcnt)
    · exact hinv _ hvmem
  · rw [hhead]
    exact Nat.mod_lt _ (by norm_num [rrBufferSize])
  · rw [hcount]
    split <;> omega

theorem detect_hrv_cases (sqrtQ : ℚ → ℚ) (irValue : ℤ) (currentTime : ℕ)
    (minValue maxValue : ℤ) (s : PeakState) :
    (detectPeakAndCalculateBPM sqrtQ irValue currentTime minValue maxValue
        s).hrv = s.hrv ∨
      ∃ rr : ℕ, 300 ≤ rr ∧ rr ≤ 2000 ∧
        (detectPeakAndCalculateBPM sqrtQ irValue currentTime minValue maxValue
          s).hrv = addRRInterval sqrtQ (rr : ℤ) s.hrv := by
  by_cases hdet : peakDetectCond irValue currentTime minValue maxValue s
  · by_cases hlb : 0 < s.lastBeatTime
    · by_cases hrr : 300 ≤ usub32 currentTime s.lastBeatTime ∧
          usub32 currentTime s.lastBeatTime ≤ 2000
      · refine Or.inr ⟨usub32 currentTime s.lastBeatTime, hrr.1, hrr.2, ?_⟩
        simp only [detectPeakAndCalculateBPM, if_pos hdet, if_pos hlb,
          if_pos hrr]
        split <;> rfl
      · refine Or.inl ?_
        simp only [detectPeakAndCalculateBPM, if_pos hdet, if_pos hlb,
          if_neg hrr]
        split <;> rfl
    · refine Or.inl ?_
      simp only [detectPeakAndCalculateBPM, if_pos hdet, if_neg hlb]
      split <;> rfl
  · refine Or.inl ?_
    simp only [detectPeakAndCalculateBPM, if_neg hdet]
    split <;> rfl

/-- C10: a full beat-detection step, for any inputs, keeps every stored RR
interval in the range 300 to 2000 ms (intervals reach addRRInterval only
through the range gate, and the outlier guard can only re-store an already
stored value); consequently the stored predecessor used as divisor in the
deviation test is nonzero, and the RMSSD divisor count minus 1 is positive
whenever the RMSSD division is taken. -/
theorem rr_range_safe (sqrtQ : ℚ → ℚ) (irValue : ℤ) (currentTime : ℕ)
    (minValue maxValue : ℤ) (s : PeakState)
    (hinv : rrInRange s.hrv) (hhd : s.hrv.head < rrBufferSize)
    (hcnt : s.hrv.count ≤ rrBufferSize) :
    rrInRange (detectPeakAndCalculateBPM sqrtQ irValue currentTime minValue
        maxValue s).hrv ∧
      (detectPeakAndCalculateBPM sqrtQ irValue currentTime minValue maxValue
        s).hrv.head < rrBufferSize ∧
      (detectPeakAndCalculateBPM sqrtQ irValue currentTime minValue maxValue
        s).hrv.count ≤ rrBufferSize ∧
      (0 < s.hrv.count → rrPrevBeat s.hrv ≠ 0) ∧
      (2 ≤ s.hrv.count → (0 : ℚ) < (s.hrv.count : ℚ) - 1) := by
  have hmain : rrInRange (detectPeakAndCalculateBPM sqrtQ irValue currentTime
      minValue maxValue s).hrv ∧
      (detectPeakAndCalculateBPM sqrtQ irValue currentTime minValue maxValue
        s).hrv.head < rrBufferSize ∧
      (detectPeakAndCalculateBPM sqrtQ irValue currentTime minValue maxValue
        s).hrv.count ≤ rrBufferSize := by
    rcases detect_hrv_cases sqrtQ irValue currentTime minValue maxValue s with
      heq | ⟨rr, hrr1, hrr2, heq⟩
    · rw [heq]; exact ⟨hinv, hhd, hcnt⟩
    · rw [heq]
      exact addRRInterval_preserves sqrtQ (rr : ℤ) s.hrv hinv
        ⟨by exact_mod_cast hrr1, by exact_mod_cast hrr2⟩ hhd hcnt
  refine ⟨hmain.1, hmain.2.1, hmain.2.2, ?_, ?_⟩
  · intro h0
    have hmem := rrPrevBeat_mem s.hrv h0 hcnt
    have hrange := hinv _ hmem
    omega
  · intro h2
    have : (2 : ℚ) ≤ (s.hrv.count : ℚ) := by exact_mod_cast h2
    linarith

theorem rr_range_safe_witness :
    rrInRange (detectPeakAndCalculateBPM (fun q => q) 0 0 0 0
        peakStateC).hrv ∧
      (detectPeakAndCalculateBPM (fun q => q) 0 0 0 0
        peakStateC).hrv.head < rrBufferSize := by
  have h := rr_range_safe (fun q => q) 0 0 0 0 peakStateC
    (by intro v hv; simp [rrContents, peakStateC] at hv)
    (by decide) (by decide)
  exact ⟨h.1, h.2.1⟩

theorem bpmIntervals_reverse (pt : ℕ → ℕ) (pIdx pc : ℕ)
    (hpc : pc ≤ peakBufferSize) :
    bpmIntervals pt pIdx pc =
      (succIntervals (chronPeakList pt pIdx pc)).reverse := by
  have hlenc : (chronPeakList pt pIdx pc).length = pc := by
    simp [chronPeakList]
  have hlen2 : (succIntervals (chronPeakList pt pIdx pc)).length = pc - 1 := by
    simp only [succIntervals, List.length_zipWith, List.length_tail, hlenc]
    omega
  apply List.ext_getElem
  · simp [bpmIntervals, hlen2]
  · intro i h1 h2
    rw [List.getElem_reverse]
    simp only [hlen2]
    simp only [bpmIntervals, List.getElem_map, List.getElem_range]
    simp only [List.length_reverse, hlen2] at h2
    simp only [succIntervals, List.getElem_zipWith, List.getElem_tail,
      chronPeakList, List.getElem_map, List.getElem_range]
    simp only [bpmIntervals, List.length_map, List.length_range] at h1
    unfold peakPairInterval
    have ea : (pIdx + peakBufferSize - (i + 1)) % peakBufferSize =
        (pIdx + peakBufferSize - pc + (pc - 1 - 1 - i + 1)) % peakBufferSize := by
      unfold peakBufferSize at hpc ⊢
      omega
    have eb : (pIdx + peakBufferSize - (i + 1) - 1) % peakBufferSize =
        (pIdx + peakBufferSize - pc + (pc - 1 - 1 - i)) % peakBufferSize := by
      unfold peakBufferSize at hpc ⊢
      omega
    rw [ea, eb]

theorem bpmFromPeaks_eq_spec (pt : ℕ → ℕ) (pIdx pc : ℕ) (prevBPM : ℚ)
    (hpc : pc ≤ peakBufferSize) :
    bpmFromPeaks pt pIdx pc prevBPM = specBPMFromPeaks pt pIdx pc prevBPM := by
  unfold bpmFromPeaks specBPMFromPeaks bpmValidIntervals
  rw [bpmIntervals_reverse pt pIdx pc hpc]
  rw [List.filter_reverse]
  simp only [List.length_reverse, List.sum_reverse]

theorem detect_peakRing (sqrtQ : ℚ → ℚ) (irValue : ℤ) (currentTime : ℕ)
    (minValue maxValue : ℤ) (s : PeakState)
    (hdet : peakDetectCond irValue currentTime minValue maxValue s) :
    (detectPeakAndCalculateBPM sqrtQ irValue currentTime minValue maxValue
        s).peakTimes = Function.update s.peakTimes s.peakIndex currentTime ∧
      (detectPeakAndCalculateBPM sqrtQ irValue currentTime minValue maxValue
        s).peakIndex = (s.peakIndex + 1) % peakBufferSize ∧
      (detectPeakAndCalculateBPM sqrtQ irValue currentTime minValue maxValue
        s).peakCount =
        (if s.peakCount < peakBufferSize then s.peakCount + 1
          else s.peakCount) ∧
      (detectPeakAndCalculateBPM sqrtQ irValue currentTime minValue maxValue
        s).currentBPM =
        (if 3 ≤ (if s.peakCount < peakBufferSize then s.peakCount + 1
            else s.peakCount) then
          bpmFromPeaks (Function.update s.peakTimes s.peakIndex currentTime)
            ((s.peakIndex + 1) % peakBufferSize)
            (if s.peakCount < peakBufferSize then s.peakCount + 1
              else s.peakCount) s.currentBPM
        else s.currentBPM) := by
  simp only [detectPeakAndCalculateBPM, if_pos hdet]
  split <;> exact ⟨rfl, rfl, rfl, rfl⟩

/-- C6 corrected: on every detected beat with at least 3 stored peak
timestamps, the BPM becomes 60000 over the mean of the valid consecutive
peak-to-peak intervals of the chronological peak list, where a valid
interval lies strictly between 250 ms and 2000 ms (the claimed half-open
range including 250 does not match the source test interval > 250); a
result outside 40 to 200 is reported as 0 and with no valid interval the
previous BPM is retained. -/
theorem detect_bpm_formula (sqrtQ : ℚ → ℚ) (irValue : ℤ) (currentTime : ℕ)
    (minValue maxValue : ℤ) (s : PeakState)
    (hdet : peakDetectCond irValue currentTime minValue maxValue s)
    (hpc : s.peakCount ≤ peakBufferSize)
    (h3 : 3 ≤ (if s.peakCount < peakBufferSize then s.peakCount + 1
      else s.peakCount)) :
    (detectPeakAndCalculateBPM sqrtQ irValue currentTime minValue maxValue
        s).currentBPM =
      specBPMFromPeaks (Function.update s.peakTimes s.peakIndex currentTime)
        ((s.peakIndex + 1) % peakBufferSize)
        (if s.peakCount < peakBufferSize then s.peakCount + 1
          else s.peakCount) s.currentBPM := by
  obtain ⟨-, -, -, hbpm⟩ :=
    detect_peakRing sqrtQ irValue currentTime minValue maxValue s hdet
  rw [hbpm, if_pos h3, bpmFromPeaks_eq_spec]
  split <;> omega

theorem detect_bpm_formula_witness :
    (detectPeakAndCalculateBPM (fun q => q) 100 2250 0 10
        peakStateB).currentBPM =
      specBPMFromPeaks
        (Function.update peakStateB.peakTimes peakStateB.peakIndex 2250)
        ((peakStateB.peakIndex + 1) % peakBufferSize)
        (if peakStateB.peakCount < peakBufferSize then peakStateB.peakCount + 1
          else peakStateB.peakCount) peakStateB.currentBPM := by
  apply detect_bpm_formula
  · refine ⟨by norm_num [peakStateB], by norm_num [peakStateB], rfl, ?_⟩
    norm_num [peakStateB, usub32]
  · norm_num [peakStateB, peakBufferSize]
  · norm_num [peakStateB, peakBufferSize]

/-- C6 counterexample: at a detected beat with three stored peaks whose
consecutive intervals are 250 ms and 1000 ms, the source rejects the
250 ms interval (test interval > 250) and reports 60 BPM, while the
claimed validity range including 250 yields mean 625 ms, hence 96 BPM. -/
theorem bpm_boundary_flaw :
    (detectPeakAndCalculateBPM (fun q => q) 100 2250 0 10
        peakStateB).peakCount = 3 ∧
      (detectPeakAndCalculateBPM (fun q => q) 100 2250 0 10
        peakStateB).currentBPM = 60 ∧
      claimBPMFromPeaks
        (detectPeakAndCalculateBPM (fun q => q) 100 2250 0 10
          peakStateB).peakTimes
        (detectPeakAndCalculateBPM (fun q => q) 100 2250 0 10
          peakStateB).peakIndex
        (detectPeakAndCalculateBPM (fun q => q) 100 2250 0 10
          peakStateB).peakCount
        peakStateB.currentBPM = 96 ∧
      (detectPeakAndCalculateBPM (fun q => q) 100 2250 0 10
          peakStateB).currentBPM ≠
        claimBPMFromPeaks
          (detectPeakAndCalculateBPM (fun q => q) 100 2250 0 10
            peakStateB).peakTimes
          (detectPeakAndCalculateBPM (fun q => q) 100 2250 0 10
            peakStateB).peakIndex
          (detectPeakAndCalculateBPM (fun q => q) 100 2250 0 10
            peakStateB).peakCount
          peakStateB.currentBPM := by
  have hdet : peakDetectCond 100 2250 0 10 peakStateB :=
    ⟨by norm_num [peakStateB], by norm_num [peakStateB], rfl,
      by norm_num [peakStateB, usub32]⟩
  obtain ⟨hpt, hpi, hpc, hbpm⟩ :=
    detect_peakRing (fun q => q) 100 2250 0 10 peakStateB hdet
  have hupdate : Function.update peakStateB.peakTimes peakStateB.peakIndex
      2250 = ptB := by
    funext j
    simp only [peakStateB, ptB, Function.update_apply]
    split_ifs <;> omega
  have h1 : (detectPeakAndCalculateBPM (fun q => q) 100 2250 0 10
      peakStateB).peakCount = 3 := by
    rw [hpc]; norm_num [peakStateB, peakBufferSize]
  have h2 : (detectPeakAndCalculateBPM (fun q => q) 100 2250 0 10
      peakStateB).currentBPM = 60 := by
    rw [hbpm, hupdate]
    norm_num [peakStateB, peakBufferSize]
    unfold bpmFromPeaks bpmValidIntervals bpmIntervals peakPairInterval
    norm_num [List.range_succ, peakBufferSize, ptB, usub32, List.filter]
  have h3 : claimBPMFromPeaks
      (detectPeakAndCalculateBPM (fun q => q) 100 2250 0 10
        peakStateB).peakTimes
      (detectPeakAndCalculateBPM (fun q => q) 100 2250 0 10
        peakStateB).peakIndex
      (detectPeakAndCalculateBPM (fun q => q) 100 2250 0 10
        peakStateB).peakCount
      peakStateB.currentBPM = 96 := by
    rw [hpt, hpi, hpc, hupdate]
    norm_num [peakStateB, peakBufferSize]
    unfold claimBPMFromPeaks succIntervals chronPeakList
    norm_num [List.range_succ, peakBufferSize, ptB, usub32, List.filter]
  refine ⟨h1, h2, h3, ?_⟩
  rw [h2, h3]
  norm_num

theorem elapsedSinceSync_eq_specElapsed (millisAtSync currentMillis : ℕ)
    (hm : currentMillis < 2 ^ 32) (hs : millisAtSync < 2 ^ 32) :
    elapsedSinceSync millisAtSync currentMillis =
      specElapsed currentMillis millisAtSync := by
  have h32 : (2 : ℕ) ^ 32 = 4294967296 := by norm_num
  unfold elapsedSinceSync specElapsed
  rw [h32] at hm hs ⊢
  split <;> omega

/-- C7: before any external sync getCurrentTime reports all-zero time;
after a sync it reports the synced snapshot plus the elapsed milliseconds
since the sync tick, where the elapsed ticks are the wraparound-safe
modular difference of the 32-bit counters, with seconds carried into
minutes, minutes into hours, and the hour reduced modulo 24 with no
carry into the date. -/
theorem getCurrentTime_spec (st : SyncedTimeS) (m : ℕ)
    (hm : m < 2 ^ 32) (hs : st.millisAtSync < 2 ^ 32) :
    (st.isValid = false →
      getCurrentTime st m = { hour := 0, minute := 0, second := 0 }) ∧
    (st.isValid = true → getCurrentTime st m = specClock st m) := by
  constructor
  · intro h
    unfold getCurrentTime
    rw [if_pos h]
  · intro h
    simp only [getCurrentTime, specClock, h]
    rw [if_neg (by simp)]
    rw [elapsedSinceSync_eq_specElapsed st.millisAtSync m hm hs]
    simp only [TimeHMS.mk.injEq]
    refine ⟨?_, ?_, ?_⟩ <;> omega

theorem getCurrentTime_spec_witness :
    getCurrentTime syncA 61000 = specClock syncA 61000 :=
  (getCurrentTime_spec syncA 61000 (by norm_num)
    (by norm_num [syncA])).2 rfl

/-- C3: an inbound command whose first byte is opcode 1 is silently
ignored, leaving syncedTime (isValid included), lastSyncedDay and
currentHour unchanged, whenever the payload is shorter than 8 bytes or a
decoded field violates the validation ranges; when all fields are valid,
syncedTime is replaced by the decoded snapshot with isValid true and the
synced day is recorded. -/
theorem timeSync_validation (value : List ℕ) (m : ℕ) (s : CmdState)
    (hop : value.getD 0 0 = 1) (hne : 0 < value.length) :
    ((value.length < 8 ∨ ¬ timeSyncFieldsOk value) →
      onWriteCommand value m s = s) ∧
    (8 ≤ value.length → timeSyncFieldsOk value →
      (onWriteCommand value m s).syncedTime = decodedSyncedTime value m ∧
      (onWriteCommand value m s).syncedTime.isValid = true ∧
      (onWriteCommand value m s).lastSyncedDay = value.getD 4 0 ∧
      (onWriteCommand value m s).bleHistoryDirty = s.bleHistoryDirty) := by
  constructor
  · intro hbad
    unfold onWriteCommand
    rw [if_pos hne, if_pos hop]
    rcases hbad with hlen | hbad
    · rw [if_neg (by omega)]
    · by_cases hlen : 8 ≤ value.length
      · rw [if_pos hlen, if_neg hbad]
      · rw [if_neg hlen]
  · intro hlen hok
    unfold onWriteCommand
    rw [if_pos hne, if_pos hop, if_pos hlen, if_pos hok]
    exact ⟨rfl, rfl, rfl, rfl⟩

theorem timeSync_validation_witness :
    onWriteCommand cmdInvalid 5000 cmdStateA = cmdStateA ∧
      (onWriteCommand cmdValid 5000 cmdStateA).syncedTime.isValid = true :=
  ⟨(timeSync_validation cmdInvalid 5000 cmdStateA rfl (by decide)).1
      (Or.inr (by decide)),
    ((timeSync_validation cmdValid 5000 cmdStateA rfl (by decide)).2
      (by decide) (by decide)).2.1⟩

theorem saveHourlyData_preserves (hour : ℤ) (s : DeviceState) :
    (saveHourlyData hour s).currentDay = s.currentDay ∧
      (saveHourlyData hour s).prefs.currentDay = s.prefs.currentDay ∧
      (saveHourlyData hour s).syncedTime = s.syncedTime ∧
      (saveHourlyData hour s).lastSyncedDay = s.lastSyncedDay ∧
      (saveHourlyData hour s).hourAccum = s.hourAccum ∧
      (saveHourlyData hour s).bleHistoryDirty = s.bleHistoryDirty := by
  simp only [saveHourlyData]
  split
  · exact ⟨rfl, rfl, rfl, rfl, rfl, rfl⟩
  · split
    · exact ⟨rfl, rfl, rfl, rfl, rfl, rfl⟩
    · exact ⟨rfl, rfl, rfl, rfl, rfl, rfl⟩

theorem saveHourlyData_empty (hour : ℤ) (s : DeviceState)
    (h : s.hourAccum.sampleCount = 0) : saveHourlyData hour s = s := by
  simp [saveHourlyData, h]

/-- C2 counterexample: from a reachable synced state at hour 23 whose
synced day-of-month has not changed, the 23 to 0 hour transition is
detected but the storage day index does not advance: the source only
rolls the day over on a day-of-month change while synced. -/
theorem day_rollover_sync_flaw :
    c2State.currentHour = 23 ∧
      (checkHourChange 3600000 c2State).currentHour = 0 ∧
      (checkHourChange 3600000 c2State).currentDay = c2State.currentDay ∧
      (checkHourChange 3600000 c2State).currentDay ≠
        (c2State.currentDay + 1) % daysToStore := by
  refine ⟨rfl, ?_, ?_, ?_⟩ <;> decide

/-- C2 corrected: on every detected hour transition, the day rollover is
detected per time mode — while synced, exactly when the synchronized
day-of-month differs from the last recorded synced day (a 23 to 0 hour
transition alone does not trigger it); without sync, exactly on the 23 to
0 transition — and on rollover the storage day index advances to
(previous + 1) mod 7, the new index is persisted, and the in-memory
24-hour buffer is reset to empty with hour fields 0 to 23; without sync,
24 simulated hour transitions from day index d end with day index
(d + 1) mod 7 and an empty buffer. -/
theorem day_rollover_behavior :
    (∀ (m : ℕ) (s : DeviceState), s.currentHour ≠ -1 →
      hourChangeNewHour m s ≠ s.currentHour →
      ((dayRolloverCond m s →
        (checkHourChange m s).currentDay =
            (s.currentDay + 1) % daysToStore ∧
          (checkHourChange m s).prefs.currentDay =
            (s.currentDay + 1) % daysToStore ∧
          (checkHourChange m s).todayData = emptyDayData) ∧
        (¬ dayRolloverCond m s →
          (checkHourChange m s).currentDay = s.currentDay ∧
            (checkHourChange m s).prefs.currentDay = s.prefs.currentDay))) ∧
      (∀ d : ℕ, d < daysToStore →
        (runHourChecks 24 (initialDayState d)).currentDay =
            (d + 1) % daysToStore ∧
          (runHourChecks 24 (initialDayState d)).prefs.currentDay =
            (d + 1) % daysToStore ∧
          (runHourChecks 24 (initialDayState d)).todayData = emptyDayData) := by
  constructor
  · intro m s hinit hch
    have hsave := saveHourlyData_preserves s.currentHour s
    constructor
    · intro hroll
      unfold dayRolloverCond at hroll
      simp only [checkHourChange]
      rw [if_neg hinit, if_pos hch]
      by_cases hv : s.syncedTime.isValid = true
      · rw [if_pos hv] at hroll ⊢
        rw [if_pos hroll]
        refine ⟨?_, ?_, rfl⟩ <;> simp [applyDayRollover, hsave.1]
      · rw [if_neg hv] at hroll ⊢
        rw [if_pos hroll]
        refine ⟨?_, ?_, rfl⟩ <;> simp [applyDayRollover, hsave.1]
    · intro hroll
      unfold dayRolloverCond at hroll
      simp only [checkHourChange]
      rw [if_neg hinit, if_pos hch]
      by_cases hv : s.syncedTime.isValid = true
      · rw [if_pos hv] at hroll ⊢
        rw [if_neg hroll]
        exact ⟨hsave.1, hsave.2.1⟩
      · rw [if_neg hv] at hroll ⊢
        rw [if_neg hroll]
        exact ⟨hsave.1, hsave.2.1⟩
  · intro d hd
    have hstep : ∀ k : ℕ, k ≤ 22 →
        checkHourChange ((k + 1) * 3600000)
            { initialDayState d with currentHour := (k : ℤ) } =
          { initialDayState d with currentHour := ((k + 1 : ℕ) : ℤ) } := by
      intro k hk
      have hnew : hourChangeNewHour ((k + 1) * 3600000)
          { initialDayState d with currentHour := (k : ℤ) } =
          ((k + 1 : ℕ) : ℤ) := by
        unfold hourChangeNewHour
        rw [if_neg (by simp [initialDayState, startupSyncedTime])]
        congr 1
        rw [Nat.mul_div_cancel _ (by norm_num)]
        exact Nat.mod_eq_of_lt (by omega)
      simp only [checkHourChange, hnew]
      rw [if_neg (by simp), if_pos (by exact_mod_cast by omega)]
      rw [saveHourlyData_empty _ _ (by rfl)]
      rw [if_neg (by simp [initialDayState, startupSyncedTime])]
      rw [if_neg (by intro hcon; exact_mod_cast hcon.1)]
      rfl
    have hinv : ∀ n : ℕ, n ≤ 23 →
        runHourChecks n (initialDayState d) =
          { initialDayState d with currentHour := (n : ℤ) } := by
      intro n
      induction n with
      | zero => intro _; rfl
      | succ k ih =>
          intro hk1
          rw [runHourChecks, List.range_succ, List.foldl_append]
          have hfold : (List.range k).foldl
              (fun st j => checkHourChange ((j + 1) * 3600000) st)
              (initialDayState d) =
              { initialDayState d with currentHour := (k : ℤ) } :=
            ih (by omega)
          rw [hfold]
          simp only [List.foldl_cons, List.foldl_nil]
          exact hstep k (by omega)
    have h23 := hinv 23 (by omega)
    have hlast : runHourChecks 24 (initialDayState d) =
        checkHourChange (24 * 3600000)
          { initialDayState d with currentHour := (23 : ℤ) } := by
      rw [runHourChecks, List.range_succ, List.foldl_append]
      rw [show (List.range 23).foldl
          (fun st j => checkHourChange ((j + 1) * 3600000) st)
          (initialDayState d) =
          runHourChecks 23 (initialDayState d) from rfl, h23]
      simp only [List.foldl_cons, List.foldl_nil]
      norm_num
    rw [hlast]
    have hnew0 : hourChangeNewHour (24 * 3600000)
        { initialDayState d with currentHour := (23 : ℤ) } = 0 := by
      unfold hourChangeNewHour
      rw [if_neg (by simp [initialDayState, startupSyncedTime])]
      norm_num
    simp only [checkHourChange, hnew0]
    rw [if_neg (by simp), if_pos (by norm_num)]
    rw [saveHourlyData_empty _ _ (by rfl)]
    rw [if_neg (by simp [initialDayState, startupSyncedTime])]
    rw [if_pos (by trivial)]
    exact ⟨rfl, rfl, rfl⟩

theorem flatten_map_range'_getD (g : ℕ → List ℕ) (w : ℕ)
    (hw : ∀ j, (g j).length = w) :
    ∀ (n s i k : ℕ), i < n → k < w →
      (((List.range' s n).map g).flatten).getD (i * w + k) 0 =
        (g (s + i)).getD k 0 := by
  intro n
  induction n with
  | zero => intro s i k hi _; exact absurd hi (Nat.not_lt_zero i)
  | succ m ih =>
      intro s i k hi hk
      rw [List.range'_succ]
      simp only [List.map_cons, List.flatten_cons]
      cases i with
      | zero =>
          rw [List.getD_append _ _ _ _ (by rw [hw]; simpa using hk)]
          simp
      | succ j =>
          have hmul : (j + 1) * w = j * w + w := by ring
          rw [List.getD_append_right _ _ _ _ (by rw [hw]; omega)]
          have h1 : (j + 1) * w + k - (g s).length = j * w + k := by
            rw [hw]
            omega
          rw [h1, ih (s + 1) j k (by omega) hk]
          congr 2
          omega

theorem flatten_map_range_getD (g : ℕ → List ℕ) (w : ℕ)
    (hw : ∀ j, (g j).length = w) (n i k : ℕ) (hi : i < n) (hk : k < w) :
    (((List.range n).map g).flatten).getD (i * w + k) 0 = (g i).getD k 0 := by
  rw [List.range_eq_range']
  simpa using flatten_map_range'_getD g w hw n 0 i k hi hk

theorem packTodayData_getD (d : List HourlySummaryS) (i k : ℕ)
    (hi : i < 24) (hk : k < 10) :
    (packTodayData d).getD (i * 10 + k) 0 =
      (encTodayEntry (d.getD i defaultHS)).getD k 0 := by
  unfold packTodayData hoursPerDay
  exact flatten_map_range_getD (fun j => encTodayEntry (d.getD j defaultHS))
    10 (fun j => rfl) 24 i k hi hk

theorem packTodayData_length (d : List HourlySummaryS) :
    (packTodayData d).length = 240 := by
  rw [packTodayData, List.length_flatten, List.map_map]
  rw [show (List.length ∘ fun i => encTodayEntry (d.getD i defaultHS)) =
    fun _ => 10 from funext (fun i => rfl)]
  simp [List.map_const', hoursPerDay]

theorem decTodayEntry_enc (r : HourlySummaryS) (buf : List ℕ) (i : ℕ)
    (hbuf : ∀ k, k < 10 → buf.getD (i * 10 + k) 0 =
      (encTodayEntry r).getD k 0)
    (hr : hsInRange r) :
    decTodayEntry buf i = expectedTodayEntry r := by
  obtain ⟨h0, h1, h2, h3, h4, h5, h6, h7⟩ := hr
  have e0 : buf.getD (i * 10) 0 = r.hour := by
    simpa [encTodayEntry] using hbuf 0 (by norm_num)
  have e1 : buf.getD (i * 10 + 1) 0 = r.avgStress := by
    simpa [encTodayEntry] using hbuf 1 (by norm_num)
  have e2 : buf.getD (i * 10 + 2) 0 = r.peakStress := by
    simpa [encTodayEntry] using hbuf 2 (by norm_num)
  have e3 : buf.getD (i * 10 + 3) 0 = r.highStressMins := by
    simpa [encTodayEntry] using hbuf 3 (by norm_num)
  have e4 : buf.getD (i * 10 + 4) 0 = r.avgHR := by
    simpa [encTodayEntry] using hbuf 4 (by norm_num)
  have e5 : buf.getD (i * 10 + 5) 0 = r.avgHRV % 256 := by
    simpa [encTodayEntry] using hbuf 5 (by norm_num)
  have e6 : buf.getD (i * 10 + 6) 0 = r.avgHRV / 256 % 256 := by
    simpa [encTodayEntry] using hbuf 6 (by norm_num)
  have e7 : buf.getD (i * 10 + 7) 0 = r.avgGSR % 256 := by
    simpa [encTodayEntry] using hbuf 7 (by norm_num)
  have e8 : buf.getD (i * 10 + 8) 0 = r.avgGSR / 256 % 256 := by
    simpa [encTodayEntry] using hbuf 8 (by norm_num)
  have e9 : buf.getD (i * 10 + 9) 0 =
      (if 0 < r.sampleCount then 1 else 0) + r.avgActivityLevel % 4 * 2 := by
    simpa [encTodayEntry] using hbuf 9 (by norm_num)
  unfold decTodayEntry expectedTodayEntry
  simp only [TodayEntry.mk.injEq]
  rw [e0, e1, e2, e3, e4, e5, e6, e7, e8, e9]
  split_ifs <;> omega

/-- C8: packing 24 hourly records whose fields respect the C field widths
and whose activity level is in 0..3 produces 240 bytes laid out as 24
consecutive 10-byte entries, and decoding the buffer byte for byte
reproduces every field: hour, avgStress, peakStress, highStressMins,
avgHR, avgHRV and avgGSR little-endian, the flags validity bit exactly
when sampleCount is positive, and the activity level in flags bits 1-2. -/
theorem todayData_roundtrip (d : List HourlySummaryS)
    (hr : ∀ r ∈ d, hsInRange r) :
    (packTodayData d).length = 240 ∧
      ∀ i, i < 24 →
        decTodayEntry (packTodayData d) i =
          expectedTodayEntry (d.getD i defaultHS) := by
  refine ⟨packTodayData_length d, fun i hi => ?_⟩
  apply decTodayEntry_enc
  · exact fun k hk => packTodayData_getD d i k hi hk
  · by_cases hlen : i < d.length
    · refine hr _ ?_
      rw [List.getD_eq_getElem _ _ hlen]
      exact List.getElem_mem hlen
    · rw [List.getD_eq_default _ _ (by omega)]
      decide

theorem todayData_roundtrip_witness :
    (packTodayData emptyDayData).length = 240 ∧
      decTodayEntry (packTodayData emptyDayData) 5 =
        expectedTodayEntry (emptyDayData.getD 5 defaultHS) := by
  have hr : ∀ r ∈ emptyDayData, hsInRange r := by
    intro r hrm
    simp only [emptyDayData, List.mem_map, List.mem_range] at hrm
    obtain ⟨j, hj, hje⟩ := hrm
    subst hje
    unfold hoursPerDay at hj
    simp only [hsInRange, defaultHS]
    omega
  exact ⟨(todayData_roundtrip emptyDayData hr).1,
    (todayData_roundtrip emptyDayData hr).2 5 (by norm_num)⟩

theorem foldl_max_le_init (l : List ℕ) : ∀ a : ℕ, a ≤ l.foldl max a := by
  induction l with
  | nil => intro a; exact le_refl a
  | cons b t ih =>
      intro a
      exact le_trans (le_max_left a b) (ih (max a b))

theorem mem_le_foldl_max (l : List ℕ) :
    ∀ a : ℕ, ∀ v ∈ l, v ≤ l.foldl max a := by
  induction l with
  | nil => intro a v hv; exact absurd hv (List.not_mem_nil v)
  | cons b t ih =>
      intro a v hv
      rcases List.mem_cons.mp hv with hvb | hvt
      · subst hvb
        exact le_trans (le_max_right a v) (foldl_max_le_init t (max a v))
      · exact ih (max a b) v hvt

theorem foldl_max_mem (l : List ℕ) :
    ∀ a : ℕ, l.foldl max a = a ∨ l.foldl max a ∈ l := by
  induction l with
  | nil => intro a; exact Or.inl rfl
  | cons b t ih =>
      intro a
      rcases ih (max a b) with heq | hmem
      · rcases max_choice a b with hab | hab
        · exact Or.inl (by simpa [hab] using heq)
        · exact Or.inr (by simp only [List.foldl_cons]; rw [heq, hab]; simp)
      · exact Or.inr (List.mem_cons_of_mem b hmem)

theorem headD_append_left {α : Type} (A B : List α) (d : α) (h : A ≠ []) :
    (A ++ B).headD d = A.headD d := by
  cases A with
  | nil => exact absurd rfl h
  | cons a t => rfl

theorem weekAggN_succ (day : List HourlySummaryS) (n : ℕ) :
    weekAggN day (n + 1) =
      weekAggStep n (day.getD n defaultHS) (weekAggN day n) := by
  unfold weekAggN
  rw [List.range_succ, List.foldl_append]
  rfl

theorem validHoursIdxN_succ (day : List HourlySummaryS) (n : ℕ) :
    validHoursIdxN day (n + 1) = validHoursIdxN day n ++
      (if 0 < (day.getD n defaultHS).sampleCount then [n] else []) := by
  unfold validHoursIdxN
  rw [List.range_succ, List.filter_append]
  congr 1
  by_cases hv : 0 < (day.getD n defaultHS).sampleCount
  · simp only [List.filter_cons, List.filter_nil, decide_eq_true_eq,
      if_pos hv]
  · simp only [List.filter_cons, List.filter_nil, decide_eq_true_eq,
      if_neg hv]

theorem weekAggN_spec (day : List HourlySummaryS) (n : ℕ) :
    (weekAggN day n).stressSum =
        ((validHoursIdxN day n).map
          (fun h => (day.getD h defaultHS).avgStress)).sum ∧
      (weekAggN day n).hrSum =
        ((validHoursIdxN day n).map
          (fun h => (day.getD h defaultHS).avgHR)).sum ∧
      (weekAggN day n).hrvSum =
        ((validHoursIdxN day n).map
          (fun h => (day.getD h defaultHS).avgHRV)).sum ∧
      (weekAggN day n).validHours = (validHoursIdxN day n).length ∧
      (weekAggN day n).highMins =
        ((validHoursIdxN day n).map
          (fun h => (day.getD h defaultHS).highStressMins)).sum % 256 ∧
      (weekAggN day n).peakStress =
        ((validHoursIdxN day n).map
          (fun h => (day.getD h defaultHS).peakStress)).foldl max 0 ∧
      (weekAggN day n).peakHour =
        (if ((validHoursIdxN day n).map
            (fun h => (day.getD h defaultHS).peakStress)).foldl max 0 = 0
        then 0
        else ((validHoursIdxN day n).filter (fun h =>
          decide ((day.getD h defaultHS).peakStress =
            ((validHoursIdxN day n).map
              (fun h => (day.getD h defaultHS).peakStress)).foldl max
                0))).headD 0) := by
  induction n with
  | zero => exact ⟨rfl, rfl, rfl, rfl, rfl, rfl, rfl⟩
  | succ n ih =>
      obtain ⟨i1, i2, i3, i4, i5, i6, i7⟩ := ih
      rw [weekAggN_succ, validHoursIdxN_succ]
      by_cases hv : 0 < (day.getD n defaultHS).sampleCount
      · rw [if_pos hv]
        unfold weekAggStep
        rw [if_pos hv]
        simp only [List.map_append, List.sum_append, List.length_append,
          List.foldl_append, List.filter_append, List.map_cons, List.map_nil,
          List.sum_cons, List.sum_nil, List.foldl_cons, List.foldl_nil,
          List.length_cons, List.length_nil]
        refine ⟨by rw [i1]; try omega, by rw [i2]; try omega,
          by rw [i3]; try omega, by rw [i4]; try omega, ?_, ?_, ?_⟩
        · rw [i5]; omega
        · rw [i6]; split <;> omega
        · rw [i6, i7]
          set A := validHoursIdxN day n with hA
          set mapA := A.map (fun h => (day.getD h defaultHS).peakStress)
            with hmapA
          set P := mapA.foldl max 0 with hP
          set xp := (day.getD n defaultHS).peakStress with hxp
          have hple : ∀ h ∈ A, (day.getD h defaultHS).peakStress ≤ P := by
            intro h hmem
            exact mem_le_foldl_max mapA 0 _
              (List.mem_map_of_mem (fun h => (day.getD h defaultHS).peakStress)
                hmem)
          by_cases hlt : P < xp
          · rw [if_pos hlt]
            have hmax : max P xp = xp := max_eq_right (le_of_lt hlt)
            simp only [hmax]
            rw [if_neg (by omega)]
            have hfilA : A.filter (fun h =>
                decide ((day.getD h defaultHS).peakStress = xp)) = [] := by
              rw [List.filter_eq_nil_iff]
              intro h hmem
              simp only [decide_eq_true_eq]
              have := hple h hmem
              omega
            have hfiln : [n].filter (fun h =>
                decide ((day.getD h defaultHS).peakStress = xp)) = [n] := by
              simp [List.filter_cons, hxp]
            rw [hfilA, hfiln]
            rfl
          · rw [if_neg hlt]
            have hmax : max P xp = P := max_eq_left (le_of_not_lt hlt)
            simp only [hmax]
            by_cases hP0 : P = 0
            · rw [if_pos hP0, if_pos hP0]
            · rw [if_neg hP0, if_neg hP0]
              have hPmem : P ∈ mapA := by
                rcases foldl_max_mem mapA 0 with h0 | hmem
                · exact absurd h0 hP0
                · exact hmem
              obtain ⟨h, hhA, hhp⟩ := List.mem_map.mp hPmem
              have hne : A.filter (fun h =>
                  decide ((day.getD h defaultHS).peakStress = P)) ≠ [] := by
                apply List.ne_nil_of_mem (a := h)
                rw [List.mem_filter]
                exact ⟨hhA, by simp only [decide_eq_true_eq]; exact hhp⟩
              rw [headD_append_left _ _ _ hne]
      · rw [if_neg hv]
        unfold weekAggStep
        rw [if_neg hv]
        simp only [List.append_nil]
        exact ⟨i1, i2, i3, i4, i5, i6, i7⟩

theorem packWeekData_getD (days : List (Option (List HourlySummaryS)))
    (d k : ℕ) (hd : d < 7) (hk : k < 10) :
    (packWeekData days).getD (d * 10 + k) 0 =
      (encWeekEntry d (match days.getD d none with
        | some dayData => weekAgg dayData
        | none => initWeekAgg)).getD k 0 := by
  unfold packWeekData daysToStore
  exact flatten_map_range_getD
    (fun dd => encWeekEntry dd (match days.getD dd none with
      | some dayData => weekAgg dayData
      | none => initWeekAgg)) 10
    (fun j => by cases days.getD j none <;> rfl) 7 d k hd hk

/-- C9 corrected: each week-record entry aggregates exactly the hours
with nonzero sample count of the persisted day: avgStress, avgHR and
avgHRV are integer means of the hourly averages over the valid hours,
peakStress is the maximum hourly peak stress over the valid hours with
peakHour the earliest valid hour achieving it when that maximum is
positive (0 otherwise), highStressMins is the sum of the hourly
high-stress minutes reduced modulo 256 (the uint8 accumulator), and a
missing or mismatched-size slot yields all-zero statistics with
validFlag 0. -/
theorem packWeekData_spec (days : List (Option (List HourlySummaryS)))
    (d : ℕ) (hd : d < daysToStore) :
    (days.getD d none = none →
      (packWeekData days).getD (d * 10) 0 = d ∧
      ∀ k, 1 ≤ k → k ≤ 9 → (packWeekData days).getD (d * 10 + k) 0 = 0) ∧
    (∀ day, days.getD d none = some day →
      (packWeekData days).getD (d * 10) 0 = d ∧
      (packWeekData days).getD (d * 10 + 1) 0 = weekStressMean day ∧
      (packWeekData days).getD (d * 10 + 2) 0 = weekPeakMax day ∧
      (packWeekData days).getD (d * 10 + 3) 0 = weekPeakHourSpec day ∧
      (packWeekData days).getD (d * 10 + 4) 0 =
        weekFieldSum (fun r => r.highStressMins) day % 256 ∧
      (packWeekData days).getD (d * 10 + 5) 0 = weekHRMean day ∧
      (packWeekData days).getD (d * 10 + 6) 0 = weekHRVMean day % 256 ∧
      (packWeekData days).getD (d * 10 + 7) 0 =
        weekHRVMean day / 256 % 256 ∧
      (packWeekData days).getD (d * 10 + 8) 0 = 0 ∧
      (packWeekData days).getD (d * 10 + 9) 0 =
        (if 0 < (validHoursIdx day).length then 1 else 0)) := by
  have hd' : d < 7 := by
    unfold daysToStore at hd
    exact hd
  constructor
  · intro hnone
    have hb : ∀ k, k < 10 → (packWeekData days).getD (d * 10 + k) 0 =
        (encWeekEntry d initWeekAgg).getD k 0 := by
      intro k hk
      rw [packWeekData_getD days d k hd' hk, hnone]
    constructor
    · have hb0 := hb 0 (by norm_num)
      simpa [encWeekEntry, initWeekAgg] using hb0
    · intro k hk1 hk9
      rw [hb k (by omega)]
      interval_cases k <;> simp [encWeekEntry, initWeekAgg]
  · intro day hsome
    have hb : ∀ k, k < 10 → (packWeekData days).getD (d * 10 + k) 0 =
        (encWeekEntry d (weekAgg day)).getD k 0 := by
      intro k hk
      rw [packWeekData_getD days d k hd' hk, hsome]
    obtain ⟨s1, s2, s3, s4, s5, s6, s7⟩ := weekAggN_spec day 24
    have hagg : weekAgg day = weekAggN day 24 := rfl
    refine ⟨?_, ?_, ?_, ?_, ?_, ?_, ?_, ?_, ?_, ?_⟩
    · have hb0 := hb 0 (by norm_num)
      simpa [encWeekEntry] using hb0
    · rw [hb 1 (by norm_num)]
      simp only [encWeekEntry, List.getD_cons_succ, List.getD_cons_zero]
      rw [hagg, s1, s4]
      rfl
    · rw [hb 2 (by norm_num)]
      simp only [encWeekEntry, List.getD_cons_succ, List.getD_cons_zero]
      rw [hagg, s6]
      rfl
    · rw [hb 3 (by norm_num)]
      simp only [encWeekEntry, List.getD_cons_succ, List.getD_cons_zero]
      rw [hagg, s7]
      rfl
    · rw [hb 4 (by norm_num)]
      simp only [encWeekEntry, List.getD_cons_succ, List.getD_cons_zero]
      rw [hagg, s5]
      rfl
    · rw [hb 5 (by norm_num)]
      simp only [encWeekEntry, List.getD_cons_succ, List.getD_cons_zero]
      rw [hagg, s2, s4]
      rfl
    · rw [hb 6 (by norm_num)]
      simp only [encWeekEntry, List.getD_cons_succ, List.getD_cons_zero]
      rw [hagg, s3, s4]
      unfold weekHRVMean weekFieldSum validHoursIdx hoursPerDay
      split_ifs <;> simp
    · rw [hb 7 (by norm_num)]
      simp only [encWeekEntry, List.getD_cons_succ, List.getD_cons_zero]
      rw [hagg, s3, s4]
      unfold weekHRVMean weekFieldSum validHoursIdx hoursPerDay
      split_ifs <;> simp
    · rw [hb 8 (by norm_num)]
      simp only [encWeekEntry, List.getD_cons_succ, List.getD_cons_zero]
    · rw [hb 9 (by norm_num)]
      simp only [encWeekEntry, List.getD_cons_succ, List.getD_cons_zero]
      rw [hagg, s4]
      rfl

/-- C9 counterexample: for the concrete day with five valid hours of 60
high-stress minutes each, the uint8 accumulator wraps the true sum 300 to
44; and with a stray positive peak stored in an invalid hour while every
valid hour has zero peak stress, the reported peakHour 0 names an hour
whose stored peak stress differs from the aggregated maximum. -/
theorem week_aggregation_flaws :
    (packWeekData c9Days).getD 4 0 = 44 ∧
      weekFieldSum (fun r => r.highStressMins) c9Day = 300 ∧
      (packWeekData c9Days).getD 4 0 ≠
        weekFieldSum (fun r => r.highStressMins) c9Day ∧
      (packWeekData c9Days).getD 3 0 = 0 ∧
      (c9Day.getD ((packWeekData c9Days).getD 3 0) defaultHS).peakStress ≠
        weekPeakMax c9Day := by
  refine ⟨?_, ?_, ?_, ?_, ?_⟩ <;> decide

theorem packWeekData_spec_witness :
    (packWeekData c9Days).getD (0 * 10 + 4) 0 =
        weekFieldSum (fun r => r.highStressMins) c9Day % 256 ∧
      (packWeekData c9Days).getD (1 * 10 + 4) 0 = 0 :=
  ⟨((packWeekData_spec c9Days 0 (by decide)).2 c9Day rfl).2.2.2.2.1,
    ((packWeekData_spec c9Days 1 (by decide)).1 rfl).2 4 (by norm_num)
      (by norm_num)⟩

theorem day_rollover_behavior_witness :
    (checkHourChange 3600000 c2StateB).currentDay =
        (c2StateB.currentDay + 1) % daysToStore ∧
      (runHourChecks 24 (initialDayState 4)).currentDay =
        (4 + 1) % daysToStore := by
  constructor
  · exact ((day_rollover_behavior.1 3600000 c2StateB (by decide)
      (by decide)).1 (by decide)).1
  · exact (day_rollover_behavior.2 4 (by decide)).1

end StressView
